import Mathlib

/-!
# Demo page controller (`script.js`)

A shallow embedding of the page script: the document is a list of elements in
tree order (an element is referred to by its position), class lists are DOM
token sets, and every script function is a function from the page before the
call to the completion of the call (a returned value or a thrown exception)
together with the page after it.

The selector of lines 15 and 35 is built from `targetId` without escaping. The
embedding evaluates it for CSS identifiers and for the strings that can never
form a selector; for every other string the answer of the browser is a
parameter (`SelectorEngine`) of the functions that perform the lookup.
-/

namespace AnimationPage

/-! ## Platform: exceptions, token sets, elements -/

/-- Exceptions raised by the operations the script uses. -/
inductive JSError
  | typeError
  | syntaxError
  | invalidCharacterError
deriving DecidableEq, Repr

/-- Inline style of an element: the two properties the script assigns, each as the string
read back from `box.style` (empty when the property is not declared). -/
structure Style where
  backgroundColor : String
  animation : String
deriving DecidableEq, Repr

/-- An element of the document. `parent` is the position of the parent element. -/
structure Element where
  id : Option String
  parent : Option Nat
  classList : List String
  style : Style
deriving DecidableEq, Repr

/-- ASCII whitespace: TAB, LF, FF, CR, SPACE. -/
def isAsciiWhitespace (c : Char) : Bool :=
  c.toNat == 9 || c.toNat == 10 || c.toNat == 12 || c.toNat == 13 || c.toNat == 32

/-- Argument check shared by `DOMTokenList.add` and `DOMTokenList.remove`:
the first empty token raises `SyntaxError`, the first token with ASCII
whitespace raises `InvalidCharacterError`. -/
def validateTokens : List String → Except JSError Unit
  | [] => .ok ()
  | t :: ts =>
    if t.data.isEmpty then .error .syntaxError
    else if t.data.any isAsciiWhitespace then .error .invalidCharacterError
    else validateTokens ts

/-- Token-set part of `classList.remove(...tokens)`. -/
def tokensRemove (l tokens : List String) : List String :=
  l.filter (fun t => !tokens.contains t)

/-- Token-set part of `classList.add(...tokens)`: each token is appended unless present. -/
def tokensAdd (l tokens : List String) : List String :=
  tokens.foldl (fun acc t => if acc.contains t then acc else acc ++ [t]) l

/-! ## Script state -/

/-- The record `animationState` (lines 4-7). -/
structure AnimationState where
  allAnimationsRunning : Bool
  boxColors : List String
deriving DecidableEq, Repr

/-- The page as the script sees it: the document and the three globals of lines 2-7. -/
structure Page where
  document : List Element
  animationBoxes : List Nat
  interactiveBox : Option Nat
  animationState : AnimationState
deriving DecidableEq, Repr

deriving instance DecidableEq for Except

/-- A completed call: the value returned or the exception thrown, and the page afterwards. -/
abbrev Completion (α : Type) := Except JSError α × Page

/-- Class list of the element at position `i` (empty when there is none). -/
def classListOf (doc : List Element) (i : Nat) : List String :=
  match doc[i]? with
  | some e => e.classList
  | none => []

/-- Whether the element at position `i` carries class `c`: `classList.contains(c)`. -/
def hasClass (doc : List Element) (i : Nat) (c : String) : Bool :=
  (classListOf doc i).contains c

/-- Whether some proper ancestor of element `i` has the given id. -/
def hasAncestorWithId (doc : List Element) (targetId : String) : Nat → Nat → Bool
  | 0, _ => false
  | fuel + 1, i =>
    match doc[i]? with
    | none => false
    | some e =>
      match e.parent with
      | none => false
      | some j =>
        match doc[j]? with
        | none => false
        | some a => a.id == some targetId || hasAncestorWithId doc targetId fuel j

/-- The static list `document.querySelectorAll('.animation-box')`. -/
def querySelectorAllAnimationBox (doc : List Element) : List Nat :=
  (List.range doc.length).filter (fun i => hasClass doc i "animation-box")

/-- The lookup `document.getElementById(id)`: first element in tree order, `none` for null. -/
def getElementById (doc : List Element) (id : String) : Option Nat :=
  (List.range doc.length).find? (fun i =>
    match doc[i]? with
    | some e => e.id == some id
    | none => false)

/-- The first element in tree order that has class `animation-box` and an ancestor whose
id is `targetId`; `none` when there is none. Ids are compared exactly, as id selectors do in
a no-quirks document. -/
def findBoxUnder (doc : List Element) (targetId : String) : Option Nat :=
  (List.range doc.length).find? (fun i =>
    hasClass doc i "animation-box" && hasAncestorWithId doc targetId doc.length i)

/-- ASCII letter or underscore: a code point that starts a CSS identifier. -/
def isIdentStart (c : Char) : Bool :=
  (65 ≤ c.toNat && c.toNat ≤ 90) || (97 ≤ c.toNat && c.toNat ≤ 122) || c.toNat == 95

/-- ASCII digit. -/
def isDigit (c : Char) : Bool :=
  48 ≤ c.toNat && c.toNat ≤ 57

/-- ASCII letter, underscore, digit or hyphen: a code point that continues a CSS identifier. -/
def isIdentChar (c : Char) : Bool :=
  isIdentStart c || isDigit c || c.toNat == 45

/-- The strings that are CSS identifiers written without escapes in ASCII: a letter or
underscore, or a hyphen followed by one, then letters, digits, underscores and hyphens. For
such a string `#targetId` is the id selector for exactly that id. -/
def isCssIdentifier (s : String) : Bool :=
  match s.data with
  | [] => false
  | c :: rest =>
    if isIdentStart c then rest.all isIdentChar
    else if c.toNat == 45 then
      match rest with
      | [] => false
      | d :: rest2 => isIdentStart d && rest2.all isIdentChar
    else false

/-- The strings for which `#targetId .animation-box` cannot be a selector whatever follows:
the empty string (a lone `#`) and strings starting with a digit (a hash token that is not an
id). -/
def isNeverSelector (s : String) : Bool :=
  match s.data with
  | [] => true
  | c :: _ => isDigit c

/-- The browser's answer to `document.querySelector` for the selector strings that this
file does not parse itself: an exception, null (`none`) or the element found. -/
abbrev SelectorEngine := List Element → String → Except JSError (Option Nat)

/-- The lookup `document.querySelector('#' + targetId + ' .animation-box')` of lines 15 and
35, where `targetId` is spliced into the selector unescaped. A CSS identifier gives the id
lookup `findBoxUnder`; the empty string and a string starting with a digit give an invalid
selector, for which `querySelector` throws `SyntaxError`; any other string is a selector
text of its own and is answered by `engine`. -/
def querySelectorBox (engine : SelectorEngine) (doc : List Element) (targetId : String) :
    Except JSError (Option Nat) :=
  if isCssIdentifier targetId then .ok (findBoxUnder doc targetId)
  else if isNeverSelector targetId then .error .syntaxError
  else engine doc targetId

/-- Lines 2-7: the globals as initialised when the script is loaded on a document. -/
def init (doc : List Element) : Page :=
  { document := doc
    animationBoxes := querySelectorAllAnimationBox doc
    interactiveBox := getElementById doc "interactive-box"
    animationState :=
      { allAnimationsRunning := true
        boxColors := ["#4cb5ae", "#4a6fa5", "#166088"] } }

/-- Update of the element at position `i` in place. Positions held by the script always
denote elements of the document (see `init_animationBoxes_lt`, `init_interactiveBox_lt`); a
position outside the document leaves the page as it is. -/
def Page.updateElement (p : Page) (i : Nat) (f : Element → Element) : Page :=
  { p with document := p.document.modify f i }

/-- The call `box.classList.remove(...tokens)` on the element at position `i`. -/
def classListRemove (p : Page) (i : Nat) (tokens : List String) : Completion Unit :=
  match validateTokens tokens with
  | .error err => (.error err, p)
  | .ok () =>
    (.ok (), p.updateElement i (fun e => { e with classList := tokensRemove e.classList tokens }))

/-- The call `box.classList.add(...tokens)` on the element at position `i`. -/
def classListAdd (p : Page) (i : Nat) (tokens : List String) : Completion Unit :=
  match validateTokens tokens with
  | .error err => (.error err, p)
  | .ok () =>
    (.ok (), p.updateElement i (fun e => { e with classList := tokensAdd e.classList tokens }))

/-- The call `animationBoxes.forEach(callback)`: the callback runs on each box in
list order; an exception ends the loop. -/
def forEach (callback : Page → Nat → Completion Unit) : List Nat → Page → Completion Unit
  | [], p => (.ok (), p)
  | i :: rest, p =>
    match callback p i with
    | (.error err, p1) => (.error err, p1)
    | (.ok (), p1) => forEach callback rest p1

/-! ## Numbers: the part of binary64 arithmetic the script exercises -/

/-- Number of low-order bits of `n` beyond a 53-bit significand. -/
def excessBits : Nat → Nat → Nat
  | 0, _ => 0
  | fuel + 1, n => if n < 2 ^ 53 then 0 else excessBits fuel (n / 2) + 1

/-- The quotient `n / 2^s` rounded to the nearest integer, ties to even. -/
def roundHalfEven (n s : Nat) : Nat :=
  let q := n / 2 ^ s
  let rem := n % 2 ^ s
  if 2 * rem < 2 ^ s then q
  else if 2 ^ s < 2 * rem then q + 1
  else if q % 2 == 0 then q else q + 1

/-- The natural number `n` rounded to 53 significant bits (round to nearest, ties to even). -/
def roundSignificand (n : Nat) : Nat :=
  let s := excessBits n n
  roundHalfEven n s * 2 ^ s

/-- A non-negative integral JavaScript number, or `Infinity`. -/
inductive JSNumber
  | finite (n : Nat)
  | infinity
deriving DecidableEq, Repr

/-- The overflow threshold of binary64, `2^1024`, written as a product of four `2^256`. -/
def overflowThreshold : Nat := 2 ^ 256 * 2 ^ 256 * 2 ^ 256 * 2 ^ 256

/-- The binary64 value nearest to the exact non-negative integer `n`. -/
def toNumber (n : Nat) : JSNumber :=
  let v := roundSignificand n
  if v < overflowThreshold then .finite v else .infinity

/-- A value of `Math.random()`, read as `mant / 2^exp`. -/
structure RandomDraw where
  mant : Nat
  exp : Nat
deriving DecidableEq, Repr

/-- The binary64 numbers `r` with `0 ≤ r < 1` are exactly the `mant / 2^exp`
with a 53-bit `mant` and `53 ≤ exp ≤ 1074`. -/
def RandomDraw.isDouble (r : RandomDraw) : Prop :=
  r.mant < 2 ^ 53 ∧ 53 ≤ r.exp ∧ r.exp ≤ 1074

instance (r : RandomDraw) : Decidable r.isDouble := by
  unfold RandomDraw.isDouble; infer_instance

/-- The expression `Math.floor(r * n)` for a draw `r` and a small integer `n`: the
exact product `mant * n / 2^exp` is rounded to a binary64 number, then floored. -/
def floorTimes (r : RandomDraw) (n : Nat) : Nat :=
  roundSignificand (r.mant * n) / 2 ^ r.exp

/-! ## The functions of `script.js` -/

/-- Function `toggleAnimation(targetId)` (lines 14-27). -/
def toggleAnimation (engine : SelectorEngine) (p : Page) (targetId : String) :
    Completion Bool :=
  match querySelectorBox engine p.document targetId with
  | .error err => (.error err, p)
  | .ok none => (.error .typeError, p)
  | .ok (some box) =>
    let isPaused := hasClass p.document box "paused"
    if isPaused then
      match classListRemove p box ["paused"] with
      | (.error err, p1) => (.error err, p1)
      | (.ok (), p1) =>
        match classListAdd p1 box ["running"] with
        | (.error err, p2) => (.error err, p2)
        | (.ok (), p2) => (.ok true, p2)
    else
      match classListRemove p box ["running"] with
      | (.error err, p1) => (.error err, p1)
      | (.ok (), p1) =>
        match classListAdd p1 box ["paused"] with
        | (.error err, p2) => (.error err, p2)
        | (.ok (), p2) => (.ok false, p2)

/-- The array `colors` of `changeColor` (line 36). -/
def colors : List String := ["#4cb5ae", "#ff6b6b", "#ffd166", "#06d6a0", "#118ab2"]

/-- Value of a hexadecimal digit. -/
def hexDigit (c : Char) : Option Nat :=
  if isDigit c then some (c.toNat - 48)
  else if 97 ≤ c.toNat && c.toNat ≤ 102 then some (c.toNat - 87)
  else if 65 ≤ c.toNat && c.toNat ≤ 70 then some (c.toNat - 55)
  else none

/-- Decimal digits of a natural number below 1000, as in `rgb(...)` components. -/
def decimal (n : Nat) : List Char :=
  let d (k : Nat) : Char := Char.ofNat (48 + k)
  if n < 10 then [d n]
  else if n < 100 then [d (n / 10), d (n % 10)]
  else [d (n / 100), d (n / 10 % 10), d (n % 10)]

/-- The string `rgb(r, g, b)`, the form in which an opaque colour is read back. -/
def rgbString (r g b : Nat) : String :=
  String.mk ("rgb(".data ++ decimal r ++ ", ".data ++ decimal g ++ ", ".data ++ decimal b
    ++ ")".data)

/-- The colour written in six-digit hexadecimal form `#rrggbb`, the notation of the palette,
as the style declaration reads it back; `none` for any other string. -/
def cssColor (v : String) : Option String :=
  match v.data with
  | [h, r1, r2, g1, g2, b1, b2] =>
    if h.toNat == 35 then
      match hexDigit r1, hexDigit r2, hexDigit g1, hexDigit g2, hexDigit b1, hexDigit b2 with
      | some a, some b, some c, some d, some e, some f =>
        some (rgbString (16 * a + b) (16 * c + d) (16 * e + f))
      | _, _, _, _, _, _ => none
    else none
  | _ => none

/-- Assignment `box.style.backgroundColor = v` (line 39) for the values the script assigns:
a palette entry declares that colour, which reads back as `rgb(r, g, b)`; `undefined`
(`none`) is not a colour and leaves the declaration as it was, and so does a string that is
not a six-digit hexadecimal colour. -/
def setBackgroundColor (e : Element) (v : Option String) : Element :=
  match v with
  | some c =>
    match cssColor c with
    | some declared => { e with style := { e.style with backgroundColor := declared } }
    | none => e
  | none => e

/-- Function `changeColor(targetId)` (lines 34-41) with `Math.random()` returning `r`;
the returned `none` is `undefined`. -/
def changeColor (engine : SelectorEngine) (p : Page) (targetId : String) (r : RandomDraw) :
    Completion (Option String) :=
  match querySelectorBox engine p.document targetId with
  | .error err => (.error err, p)
  | .ok box =>
    let randomColor := colors[floorTimes r colors.length]?
    match box with
    | none => (.error .typeError, p)
    | some b => (.ok randomColor, p.updateElement b (fun e => setBackgroundColor e randomColor))

/-- The array `animationClasses` of `applyBoxAnimation` (line 50). -/
def animationClasses : List String := ["bounce", "shake", "flip", "swing"]

/-- Function `applyBoxAnimation(animationName)` (lines 48-57). -/
def applyBoxAnimation (p : Page) (animationName : String) : Completion Bool :=
  match p.interactiveBox with
  | none => (.error .typeError, p)
  | some box =>
    match classListRemove p box animationClasses with
    | (.error err, p1) => (.error err, p1)
    | (.ok (), p1) =>
      match classListAdd p1 box [animationName] with
      | (.error err, p2) => (.error err, p2)
      | (.ok (), p2) => (.ok true, p2)

/-- Function `calculateTotalTime(duration, delay)` (lines 65-67) on non-negative
integral arguments: the binary64 sum. -/
def calculateTotalTime (duration delay : Nat) : JSNumber :=
  toNumber (duration + delay)

/-- The arrow function passed to `forEach` in `toggleAllAnimations` (lines 75-83). -/
def toggleAllCallback (shouldRun : Bool) (p : Page) (box : Nat) : Completion Unit :=
  if shouldRun then
    match classListRemove p box ["paused"] with
    | (.error err, p1) => (.error err, p1)
    | (.ok (), p1) => classListAdd p1 box ["running"]
  else
    match classListRemove p box ["running"] with
    | (.error err, p1) => (.error err, p1)
    | (.ok (), p1) => classListAdd p1 box ["paused"]

/-- Function `toggleAllAnimations(shouldRun)` (lines 74-87). -/
def toggleAllAnimations (p : Page) (shouldRun : Bool) : Completion Bool :=
  match forEach (toggleAllCallback shouldRun) p.animationBoxes p with
  | (.error err, p1) => (.error err, p1)
  | (.ok (), p1) =>
    (.ok shouldRun,
      { p1 with animationState := { p1.animationState with allAnimationsRunning := shouldRun } })

/-- The arrow function passed to `forEach` in `resetAllAnimations` (lines 94-98). -/
def resetCallback (p : Page) (box : Nat) : Completion Unit :=
  match classListRemove p box ["paused", "running"] with
  | (.error err, p1) => (.error err, p1)
  | (.ok (), p1) =>
    (.ok (), p1.updateElement box (fun e => { e with style := { animation := "", backgroundColor := "" } }))

/-- Function `resetAllAnimations()` (lines 93-104). -/
def resetAllAnimations (p : Page) : Completion Bool :=
  match forEach resetCallback p.animationBoxes p with
  | (.error err, p1) => (.error err, p1)
  | (.ok (), p1) =>
    match p1.interactiveBox with
    | none => (.error .typeError, p1)
    | some box =>
      match classListRemove p1 box ["bounce", "shake", "flip", "swing"] with
      | (.error err, p2) => (.error err, p2)
      | (.ok (), p2) =>
        (.ok true,
          { p2 with animationState := { p2.animationState with allAnimationsRunning := true } })

/-- One call of a script function, as made by a click handler. -/
inductive Call
  | toggleAnimation (targetId : String)
  | changeColor (targetId : String) (r : RandomDraw)
  | applyBoxAnimation (animationName : String)
  | toggleAllAnimations (shouldRun : Bool)
  | resetAllAnimations
deriving DecidableEq, Repr

/-- The page after one call; an exception ends that call only. -/
def Call.run (engine : SelectorEngine) (p : Page) : Call → Page
  | .toggleAnimation targetId => (AnimationPage.toggleAnimation engine p targetId).2
  | .changeColor targetId r => (AnimationPage.changeColor engine p targetId r).2
  | .applyBoxAnimation animationName => (AnimationPage.applyBoxAnimation p animationName).2
  | .toggleAllAnimations shouldRun => (AnimationPage.toggleAllAnimations p shouldRun).2
  | .resetAllAnimations => (AnimationPage.resetAllAnimations p).2

/-- The page after a sequence of calls, first call first. -/
def runCalls (engine : SelectorEngine) (p : Page) (calls : List Call) : Page :=
  calls.foldl (Call.run engine) p

/-- An element update keeps the tree, the ids and the `animation-box` class. -/
def KeepsSkeleton (f : Element → Element) : Prop :=
  ∀ e, (f e).id = e.id ∧ (f e).parent = e.parent ∧
    (f e).classList.contains "animation-box" = e.classList.contains "animation-box"

/-- Page of one card `card1` holding one animation box, and a separate interactive box. -/
def cardDocument : List Element :=
  [ { id := some "card1", parent := none, classList := ["animation-card"], style := ⟨"", ""⟩ },
    { id := none, parent := some 0, classList := ["animation-box"], style := ⟨"", ""⟩ },
    { id := some "interactive-box", parent := none, classList := ["demo-box"], style := ⟨"", ""⟩ } ]

/-- Page whose only animation box, under card `card1`, is running. -/
def playingDocument : List Element :=
  [ { id := some "card1", parent := none, classList := ["animation-card"], style := ⟨"", ""⟩ },
    { id := none, parent := some 0, classList := ["animation-box", "running"],
      style := ⟨"", ""⟩ },
    { id := some "interactive-box", parent := none, classList := ["demo-box", "flip"],
      style := ⟨"", ""⟩ } ]

/-- Net effect of the `toggleAllAnimations` callback (lines 76-82) on one class list. -/
def toggledClasses (shouldRun : Bool) (l : List String) : List String :=
  tokensAdd (tokensRemove l [if shouldRun then "paused" else "running"])
    [if shouldRun then "running" else "paused"]

/-- Net effect of the `resetAllAnimations` callback (lines 95-97) on one element. -/
def resetBox (e : Element) : Element :=
  { e with
    classList := tokensRemove e.classList ["paused", "running"]
    style := { animation := "", backgroundColor := "" } }

/-- Page whose animation box under `card1` carries `bounce` and is paused, with a separate
interactive box. -/
def bouncingDocument : List Element :=
  [ { id := some "card1", parent := none, classList := ["animation-card"], style := ⟨"", ""⟩ },
    { id := none, parent := some 0, classList := ["animation-box", "bounce", "paused"],
      style := ⟨"rgb(255, 107, 107)", ""⟩ },
    { id := some "interactive-box", parent := none, classList := ["demo-box", "swing"],
      style := ⟨"", ""⟩ } ]

/-- Page whose interactive box is itself an animation box, under card `demo`. -/
def interactiveDocument : List Element :=
  [ { id := some "demo", parent := none, classList := ["animation-card"], style := ⟨"", ""⟩ },
    { id := some "interactive-box", parent := some 0, classList := ["animation-box"],
      style := ⟨"", ""⟩ } ]

/-- Page with a card whose id `1card` starts with a digit, holding a paused animation box. -/
def digitIdDocument : List Element :=
  [ { id := some "1card", parent := none, classList := ["animation-card"], style := ⟨"", ""⟩ },
    { id := none, parent := some 0, classList := ["animation-box", "paused"],
      style := ⟨"", ""⟩ },
    { id := some "interactive-box", parent := none, classList := ["demo-box"],
      style := ⟨"", ""⟩ } ]

/-- A selector engine that answers null. The concrete pages of this file are looked up only
with identifiers and with `1card`, for which the engine is not consulted. -/
def nullEngine : SelectorEngine := fun _ _ => .ok none

/-- The element at position `j` does not carry both `paused` and `running`. -/
def Exclusive (doc : List Element) (j : Nat) : Prop :=
  ¬ (hasClass doc j "paused" = true ∧ hasClass doc j "running" = true)

instance (doc : List Element) (j : Nat) : Decidable (Exclusive doc j) := by
  unfold Exclusive; infer_instance

/-! # Theorems -/


/-! ## Token sets -/

theorem validateTokens_paused : validateTokens ["paused"] = .ok () := rfl

theorem validateTokens_running : validateTokens ["running"] = .ok () := rfl

theorem validateTokens_paused_running : validateTokens ["paused", "running"] = .ok () := rfl

theorem validateTokens_animationClasses : validateTokens animationClasses = .ok () := rfl

theorem mem_tokensRemove (l ts : List String) (c : String) :
    c ∈ tokensRemove l ts ↔ c ∈ l ∧ c ∉ ts := by
  simp [tokensRemove, List.mem_filter]

theorem tokensAdd_singleton (l : List String) (t : String) :
    tokensAdd l [t] = if l.contains t then l else l ++ [t] := by
  simp [tokensAdd]

theorem mem_tokensAdd (l : List String) (t c : String) :
    c ∈ tokensAdd l [t] ↔ c ∈ l ∨ c = t := by
  rw [tokensAdd_singleton]
  by_cases h1 : t ∈ l <;> by_cases h3 : c = t <;> simp_all

/-! ## Element updates -/

theorem getElem?_updateElement (p : Page) (i j : Nat) (f : Element → Element) :
    (p.updateElement i f).document[j]? =
      (p.document[j]?).map (fun e => if i = j then f e else e) := by
  simp [Page.updateElement, List.getElem?_modify]

theorem updateElement_updateElement (p : Page) (i : Nat) (f g : Element → Element) :
    (p.updateElement i f).updateElement i g = p.updateElement i (fun e => g (f e)) := by
  simp [Page.updateElement, List.modify_modify_eq, Function.comp_def]

theorem hasClass_updateElement_ne (p : Page) (i j : Nat) (f : Element → Element) (c : String)
    (h : i ≠ j) : hasClass (p.updateElement i f).document j c = hasClass p.document j c := by
  simp [hasClass, classListOf, getElem?_updateElement, h]

theorem hasClass_updateElement_eq (p : Page) (i : Nat) (f : Element → Element) (c : String)
    (e : Element) (h : p.document[i]? = some e) :
    hasClass (p.updateElement i f).document i c = (f e).classList.contains c := by
  simp [hasClass, classListOf, getElem?_updateElement, h]

theorem hasClass_eq (doc : List Element) (i : Nat) (c : String) (e : Element)
    (h : doc[i]? = some e) : hasClass doc i c = e.classList.contains c := by
  simp [hasClass, classListOf, h]

theorem classListRemove_ok (p : Page) (i : Nat) (tokens : List String)
    (h : validateTokens tokens = .ok ()) :
    classListRemove p i tokens =
      (.ok (), p.updateElement i
        (fun e => { e with classList := tokensRemove e.classList tokens })) := by
  simp [classListRemove, h]

theorem classListAdd_ok (p : Page) (i : Nat) (tokens : List String)
    (h : validateTokens tokens = .ok ()) :
    classListAdd p i tokens =
      (.ok (), p.updateElement i
        (fun e => { e with classList := tokensAdd e.classList tokens })) := by
  simp [classListAdd, h]

/-- What a call of `toggleAnimation` does when the selector finds `box`. -/
theorem toggleAnimation_of_found (engine : SelectorEngine) (p : Page) (targetId : String)
    (box : Nat) (h : querySelectorBox engine p.document targetId = .ok (some box)) :
    toggleAnimation engine p targetId =
      if hasClass p.document box "paused" then
        (.ok true, p.updateElement box (fun e =>
          { e with classList := tokensAdd (tokensRemove e.classList ["paused"]) ["running"] }))
      else
        (.ok false, p.updateElement box (fun e =>
          { e with classList := tokensAdd (tokensRemove e.classList ["running"]) ["paused"] })) := by
  simp only [toggleAnimation, h]
  split
  · simp [classListRemove_ok, classListAdd_ok, validateTokens_paused, validateTokens_running,
      updateElement_updateElement]
  · simp [classListRemove_ok, classListAdd_ok, validateTokens_paused, validateTokens_running,
      updateElement_updateElement]

theorem toggleAnimation_of_null (engine : SelectorEngine) (p : Page) (targetId : String)
    (h : querySelectorBox engine p.document targetId = .ok none) :
    toggleAnimation engine p targetId = (.error .typeError, p) := by
  simp only [toggleAnimation, h]

theorem toggleAnimation_of_error (engine : SelectorEngine) (p : Page) (targetId : String)
    (err : JSError) (h : querySelectorBox engine p.document targetId = .error err) :
    toggleAnimation engine p targetId = (.error err, p) := by
  simp only [toggleAnimation, h]

theorem querySelectorBox_of_identifier (engine : SelectorEngine) (doc : List Element)
    (targetId : String) (h : isCssIdentifier targetId = true) :
    querySelectorBox engine doc targetId = .ok (findBoxUnder doc targetId) := by
  simp only [querySelectorBox, h, if_true]

theorem findBoxUnder_lt (doc : List Element) (targetId : String) (box : Nat)
    (h : findBoxUnder doc targetId = some box) : box < doc.length := by
  have := List.mem_of_find?_eq_some h
  simpa using this

theorem hasAncestorWithId_updateElement (p : Page) (i : Nat) (f : Element → Element)
    (hf : KeepsSkeleton f) (targetId : String) (fuel j : Nat) :
    hasAncestorWithId (p.updateElement i f).document targetId fuel j =
      hasAncestorWithId p.document targetId fuel j := by
  induction fuel generalizing j with
  | zero => rfl
  | succ n ih =>
    simp only [hasAncestorWithId, getElem?_updateElement]
    cases hj : p.document[j]? with
    | none => simp
    | some e =>
      have hpar : (if i = j then f e else e).parent = e.parent := by
        split
        · exact (hf e).2.1
        · rfl
      simp only [Option.map_some', hpar]
      cases hp : e.parent with
      | none => simp
      | some k =>
        simp only
        cases hk : p.document[k]? with
        | none => simp
        | some a =>
          have hid : (if i = k then f a else a).id = a.id := by
            split
            · exact (hf a).1
            · rfl
          simp only [Option.map_some', hid, ih]

theorem hasClass_animationBox_updateElement (p : Page) (i : Nat) (f : Element → Element)
    (hf : KeepsSkeleton f) (j : Nat) :
    hasClass (p.updateElement i f).document j "animation-box" =
      hasClass p.document j "animation-box" := by
  simp only [hasClass, classListOf, getElem?_updateElement]
  cases hj : p.document[j]? with
  | none => simp
  | some e =>
    simp only [Option.map_some']
    split
    · exact (hf e).2.2
    · rfl

theorem findBoxUnder_updateElement (p : Page) (i : Nat) (f : Element → Element)
    (hf : KeepsSkeleton f) (targetId : String) :
    findBoxUnder (p.updateElement i f).document targetId =
      findBoxUnder p.document targetId := by
  have hlen : (p.updateElement i f).document.length = p.document.length := by
    simp [Page.updateElement]
  simp only [findBoxUnder, hlen, hasAncestorWithId_updateElement p i f hf,
    hasClass_animationBox_updateElement p i f hf]

theorem keepsSkeleton_toRunning : KeepsSkeleton (fun e =>
    { e with classList := tokensAdd (tokensRemove e.classList ["paused"]) ["running"] }) := by
  intro e
  simp [mem_tokensAdd, mem_tokensRemove]

theorem keepsSkeleton_toPaused : KeepsSkeleton (fun e =>
    { e with classList := tokensAdd (tokensRemove e.classList ["running"]) ["paused"] }) := by
  intro e
  simp [mem_tokensAdd, mem_tokensRemove]

/-- Effect of one `toggleAnimation` call on the box the lookup finds. -/
theorem toggleAnimation_effect (engine : SelectorEngine) (p : Page) (targetId : String)
    (box : Nat) (e : Element)
    (h : querySelectorBox engine p.document targetId = .ok (some box))
    (he : p.document[box]? = some e) :
    (toggleAnimation engine p targetId).1 = .ok (hasClass p.document box "paused") ∧
    hasClass (toggleAnimation engine p targetId).2.document box "running"
      = hasClass p.document box "paused" ∧
    hasClass (toggleAnimation engine p targetId).2.document box "paused"
      = !hasClass p.document box "paused" := by
  rw [toggleAnimation_of_found engine p targetId box h]
  by_cases hp : hasClass p.document box "paused" = true
  · rw [if_pos hp, hp]
    refine ⟨rfl, ?_, ?_⟩
    · simp [hasClass_updateElement_eq p box _ _ e he, mem_tokensAdd]
    · simp [hasClass_updateElement_eq p box _ _ e he, mem_tokensAdd, mem_tokensRemove]
  · have hp' : hasClass p.document box "paused" = false := by simpa using hp
    rw [if_neg hp, hp']
    refine ⟨rfl, ?_, ?_⟩
    · simp [hasClass_updateElement_eq p box _ _ e he, mem_tokensAdd, mem_tokensRemove]
    · simp [hasClass_updateElement_eq p box _ _ e he, mem_tokensAdd]

/-- For a `targetId` that is a CSS identifier the lookup gives the same answer after a
`toggleAnimation` call as before it. -/
theorem querySelectorBox_toggleAnimation (engine : SelectorEngine) (p : Page)
    (targetId : String) (hid : isCssIdentifier targetId = true) :
    querySelectorBox engine (toggleAnimation engine p targetId).2.document targetId =
      querySelectorBox engine p.document targetId := by
  have hq := querySelectorBox_of_identifier engine p.document targetId hid
  rw [querySelectorBox_of_identifier engine _ targetId hid, hq]
  cases hf : findBoxUnder p.document targetId with
  | none =>
    rw [hf] at hq
    rw [toggleAnimation_of_null engine p targetId hq, hf]
  | some box =>
    rw [hf] at hq
    rw [toggleAnimation_of_found engine p targetId box hq]
    split
    · rw [findBoxUnder_updateElement p box _ keepsSkeleton_toRunning, hf]
    · rw [findBoxUnder_updateElement p box _ keepsSkeleton_toPaused, hf]

/-- When the lookup of line 15 finds an element, `toggleAnimation(targetId)` returns a
boolean that is `true` exactly when the element carried `paused` before the call; if it
returns `true` the element afterwards has `running` and not `paused`, and if it returns
`false` the element afterwards has `paused` and not `running`. -/
theorem toggleAnimation_returns_resulting_state (engine : SelectorEngine) (p : Page)
    (targetId : String) (box : Nat) (e : Element)
    (h : querySelectorBox engine p.document targetId = .ok (some box))
    (he : p.document[box]? = some e) :
    ∃ result : Bool,
      (toggleAnimation engine p targetId).1 = .ok result ∧
      (result = true ↔ hasClass p.document box "paused" = true) ∧
      (result = true →
        hasClass (toggleAnimation engine p targetId).2.document box "running" = true ∧
        hasClass (toggleAnimation engine p targetId).2.document box "paused" = false) ∧
      (result = false →
        hasClass (toggleAnimation engine p targetId).2.document box "paused" = true ∧
        hasClass (toggleAnimation engine p targetId).2.document box "running" = false) := by
  obtain ⟨h1, h2, h3⟩ := toggleAnimation_effect engine p targetId box e h he
  refine ⟨hasClass p.document box "paused", h1, Iff.rfl, ?_, ?_⟩
  · intro hp
    rw [h2, h3, hp]
    exact ⟨rfl, rfl⟩
  · intro hp
    rw [h2, h3, hp]
    exact ⟨rfl, rfl⟩

/-- Claim C8, failing input. The card `1card` of `digitIdDocument` holds a paused animation
box, yet `toggleAnimation('1card')` throws `SyntaxError` from the lookup of line 15 (the
selector `#1card .animation-box` is invalid), returns nothing and leaves the box paused and
not running. -/
theorem toggleAnimation_digit_id_throws :
    findBoxUnder (init digitIdDocument).document "1card" = some 1 ∧
    hasClass (init digitIdDocument).document 1 "paused" = true ∧
    (toggleAnimation nullEngine (init digitIdDocument) "1card").1 = .error .syntaxError ∧
    hasClass (toggleAnimation nullEngine (init digitIdDocument) "1card").2.document 1 "paused"
      = true ∧
    hasClass (toggleAnimation nullEngine (init digitIdDocument) "1card").2.document 1 "running"
      = false := by
  decide

/-- Claim C1 (amended). For a `targetId` that is a CSS identifier and a target box the
lookup finds, two successive calls of `toggleAnimation(targetId)` leave the presence of
`paused` as it was and leave `running` present exactly when `paused` is absent; so a box that
carried exactly one of `paused` and `running` gets back the membership it had. -/
theorem toggleAnimation_twice (engine : SelectorEngine) (p : Page) (targetId : String)
    (box : Nat) (hid : isCssIdentifier targetId = true)
    (h : querySelectorBox engine p.document targetId = .ok (some box)) :
    hasClass (toggleAnimation engine (toggleAnimation engine p targetId).2
      targetId).2.document box "paused" = hasClass p.document box "paused" ∧
    hasClass (toggleAnimation engine (toggleAnimation engine p targetId).2
      targetId).2.document box "running" = !hasClass p.document box "paused" ∧
    (hasClass p.document box "running" = !hasClass p.document box "paused" →
      hasClass (toggleAnimation engine (toggleAnimation engine p targetId).2
        targetId).2.document box "running" = hasClass p.document box "running") := by
  have hfind : findBoxUnder p.document targetId = some box := by
    rw [querySelectorBox_of_identifier engine p.document targetId hid] at h
    exact Except.ok.inj h
  have hlt := findBoxUnder_lt p.document targetId box hfind
  have he : p.document[box]? = some p.document[box] := List.getElem?_eq_getElem hlt
  obtain ⟨_, h2, h3⟩ := toggleAnimation_effect engine p targetId box _ h he
  have h4 : querySelectorBox engine (toggleAnimation engine p targetId).2.document targetId
      = .ok (some box) := by
    rw [querySelectorBox_toggleAnimation engine p targetId hid]; exact h
  have hfind2 : findBoxUnder (toggleAnimation engine p targetId).2.document targetId
      = some box := by
    rw [querySelectorBox_of_identifier engine _ targetId hid] at h4
    exact Except.ok.inj h4
  have hlt2 := findBoxUnder_lt _ targetId box hfind2
  have he2 : (toggleAnimation engine p targetId).2.document[box]?
      = some (toggleAnimation engine p targetId).2.document[box] :=
    List.getElem?_eq_getElem hlt2
  obtain ⟨_, k2, k3⟩ :=
    toggleAnimation_effect engine (toggleAnimation engine p targetId).2 targetId box _ h4 he2
  have hp : hasClass (toggleAnimation engine (toggleAnimation engine p targetId).2
      targetId).2.document box "paused" = hasClass p.document box "paused" := by
    rw [k3, h3, Bool.not_not]
  have hr : hasClass (toggleAnimation engine (toggleAnimation engine p targetId).2
      targetId).2.document box "running" = !hasClass p.document box "paused" := by
    rw [k2, h3]
  exact ⟨hp, hr, fun hx => by rw [hr, hx]⟩

/-- Witness for C1 (amended): a running box is running again after two toggles. -/
theorem toggleAnimation_twice_witness :
    isCssIdentifier "card1" = true ∧
    querySelectorBox nullEngine (init playingDocument).document "card1" = .ok (some 1) ∧
    hasClass (init playingDocument).document 1 "running"
      = !hasClass (init playingDocument).document 1 "paused" ∧
    hasClass (toggleAnimation nullEngine (toggleAnimation nullEngine (init playingDocument)
      "card1").2 "card1").2.document 1 "paused"
        = hasClass (init playingDocument).document 1 "paused" ∧
    hasClass (toggleAnimation nullEngine (toggleAnimation nullEngine (init playingDocument)
      "card1").2 "card1").2.document 1 "running"
        = hasClass (init playingDocument).document 1 "running" :=
  ⟨by decide, by decide, by decide,
    (toggleAnimation_twice nullEngine (init playingDocument) "card1" 1 (by decide)
      (by decide)).1,
    (toggleAnimation_twice nullEngine (init playingDocument) "card1" 1 (by decide)
      (by decide)).2.2 (by decide)⟩

/-- Counterexample to C1: the box of `card1` starts with neither `paused` nor `running`;
after two calls of `toggleAnimation('card1')` it carries `running`. -/
theorem toggleAnimation_twice_counterexample :
    isCssIdentifier "card1" = true ∧
    querySelectorBox nullEngine (init cardDocument).document "card1" = .ok (some 1) ∧
    hasClass (init cardDocument).document 1 "paused" = false ∧
    hasClass (init cardDocument).document 1 "running" = false ∧
    hasClass (toggleAnimation nullEngine (toggleAnimation nullEngine (init cardDocument)
      "card1").2 "card1").2.document 1 "running" = true := by
  decide

theorem validateTokens_singleton (t : String) :
    validateTokens [t] =
      if t.data.isEmpty then .error .syntaxError
      else if t.data.any isAsciiWhitespace then .error .invalidCharacterError
      else .ok () := rfl

theorem validateTokens_of_mem_animationClasses (t : String) (h : t ∈ animationClasses) :
    validateTokens [t] = .ok () := by
  simp only [animationClasses, List.mem_cons, List.mem_singleton, List.not_mem_nil, or_false] at h
  rcases h with rfl | rfl | rfl | rfl <;> rfl

/-- What a call of `applyBoxAnimation` does when the interactive box exists. -/
theorem applyBoxAnimation_of_found (p : Page) (animationName : String) (box : Nat)
    (h : p.interactiveBox = some box) :
    applyBoxAnimation p animationName =
      match validateTokens [animationName] with
      | .error err =>
        (.error err, p.updateElement box (fun e =>
          { e with classList := tokensRemove e.classList animationClasses }))
      | .ok () =>
        (.ok true, p.updateElement box (fun e =>
          { e with classList :=
              tokensAdd (tokensRemove e.classList animationClasses) [animationName] })) := by
  simp only [applyBoxAnimation, h, classListRemove_ok _ _ _ validateTokens_animationClasses,
    classListAdd]
  cases hv : validateTokens [animationName] with
  | error err => rfl
  | ok u => simp [updateElement_updateElement]

theorem classListOf_updateElement_eq (p : Page) (i : Nat) (f : Element → Element)
    (e : Element) (h : p.document[i]? = some e) :
    classListOf (p.updateElement i f).document i = (f e).classList := by
  simp [classListOf, getElem?_updateElement, h]

theorem classListOf_updateElement_ne (p : Page) (i j : Nat) (f : Element → Element)
    (h : i ≠ j) :
    classListOf (p.updateElement i f).document j = classListOf p.document j := by
  simp [classListOf, getElem?_updateElement, h]

/-- Class list of the interactive box after `applyBoxAnimation`. -/
theorem classListOf_applyBoxAnimation (p : Page) (animationName : String) (box : Nat)
    (e : Element) (h : p.interactiveBox = some box) (he : p.document[box]? = some e) :
    classListOf (applyBoxAnimation p animationName).2.document box =
      match validateTokens [animationName] with
      | .error _ => tokensRemove e.classList animationClasses
      | .ok () => tokensAdd (tokensRemove e.classList animationClasses) [animationName] := by
  rw [applyBoxAnimation_of_found p animationName box h]
  cases hv : validateTokens [animationName] with
  | error err => simp [classListOf_updateElement_eq p box _ e he]
  | ok u => simp [classListOf_updateElement_eq p box _ e he]

theorem filter_animationClasses_tokensRemove (l : List String) :
    animationClasses.filter (fun c => (tokensRemove l animationClasses).contains c) = [] := by
  rw [List.filter_eq_nil_iff]
  intro c hc hmem
  have hmem2 : c ∈ tokensRemove l animationClasses := by simpa using hmem
  exact ((mem_tokensRemove l animationClasses c).1 hmem2).2 hc

theorem filter_animationClasses_tokensAdd (l : List String) (t : String) :
    animationClasses.filter
        (fun c => (tokensAdd (tokensRemove l animationClasses) [t]).contains c) =
      animationClasses.filter (fun c => c == t) := by
  apply List.filter_congr
  intro c hc
  by_cases hct : c = t <;> simp [mem_tokensAdd, mem_tokensRemove, hc, hct]

theorem length_filter_animationClasses_eq (t : String) :
    (animationClasses.filter (fun c => c == t)).length ≤ 1 := by
  by_cases h1 : "bounce" = t
  · subst h1; decide
  by_cases h2 : "shake" = t
  · subst h2; decide
  by_cases h3 : "flip" = t
  · subst h3; decide
  by_cases h4 : "swing" = t
  · subst h4; decide
  simp [animationClasses, List.filter_cons, h1, h2, h3, h4]

theorem filter_animationClasses_eq_of_mem (t : String) (h : t ∈ animationClasses) :
    animationClasses.filter (fun c => c == t) = [t] := by
  simp only [animationClasses, List.mem_cons, List.mem_singleton, List.not_mem_nil, or_false] at h
  rcases h with rfl | rfl | rfl | rfl <;> decide

/-- Claim C2. For every prior class list of the interactive box and every `effectName`, after
`applyBoxAnimation(effectName)` at most one of `bounce`, `shake`, `flip`, `swing` is present
on the interactive box, and when `effectName` is one of the four it is the one present. -/
theorem applyBoxAnimation_at_most_one_effect (p : Page) (effectName : String) (box : Nat)
    (e : Element) (h : p.interactiveBox = some box) (he : p.document[box]? = some e) :
    (animationClasses.filter (fun c =>
        hasClass (applyBoxAnimation p effectName).2.document box c)).length ≤ 1 ∧
    (effectName ∈ animationClasses →
      animationClasses.filter (fun c =>
        hasClass (applyBoxAnimation p effectName).2.document box c) = [effectName]) := by
  simp only [hasClass, classListOf_applyBoxAnimation p effectName box e h he]
  constructor
  · cases hv : validateTokens [effectName] with
    | error err =>
      simp only [filter_animationClasses_tokensRemove]
      exact Nat.zero_le 1
    | ok u =>
      simp only [filter_animationClasses_tokensAdd]
      exact length_filter_animationClasses_eq effectName
  · intro hmem
    simp only [validateTokens_of_mem_animationClasses effectName hmem,
      filter_animationClasses_tokensAdd]
    exact filter_animationClasses_eq_of_mem effectName hmem

/-- Witness for C2: `shake` applied to an interactive box that carried `flip`. -/
theorem applyBoxAnimation_at_most_one_effect_witness :
    (init playingDocument).interactiveBox = some 2 ∧
    "shake" ∈ animationClasses ∧
    (animationClasses.filter (fun c =>
        hasClass (applyBoxAnimation (init playingDocument) "shake").2.document 2 c)).length ≤ 1 ∧
    animationClasses.filter (fun c =>
        hasClass (applyBoxAnimation (init playingDocument) "shake").2.document 2 c) = ["shake"] :=
  ⟨by decide, by decide,
    (applyBoxAnimation_at_most_one_effect (init playingDocument) "shake" 2
      (init playingDocument).document[2] (by decide) (by decide)).1,
    (applyBoxAnimation_at_most_one_effect (init playingDocument) "shake" 2
      (init playingDocument).document[2] (by decide) (by decide)).2 (by decide)⟩

/-- Claim C9 (amended). With the interactive box present: for every `effectName` that is not
empty and has no ASCII whitespace, `applyBoxAnimation(effectName)` returns `true` and leaves
`effectName` in the class list of the interactive box; for the empty string it throws
`SyntaxError`, and for a name with ASCII whitespace it throws `InvalidCharacterError`; in
both failing cases nothing is returned and the class list is the prior one without the four
effect names. -/
theorem applyBoxAnimation_completion (p : Page) (effectName : String) (box : Nat)
    (e : Element) (h : p.interactiveBox = some box) (he : p.document[box]? = some e) :
    (effectName.data.isEmpty = false → effectName.data.any isAsciiWhitespace = false →
      (applyBoxAnimation p effectName).1 = .ok true ∧
      hasClass (applyBoxAnimation p effectName).2.document box effectName = true) ∧
    (effectName.data.isEmpty = true →
      (applyBoxAnimation p effectName).1 = .error .syntaxError ∧
      classListOf (applyBoxAnimation p effectName).2.document box
        = tokensRemove e.classList animationClasses) ∧
    (effectName.data.isEmpty = false → effectName.data.any isAsciiWhitespace = true →
      (applyBoxAnimation p effectName).1 = .error .invalidCharacterError ∧
      classListOf (applyBoxAnimation p effectName).2.document box
        = tokensRemove e.classList animationClasses) := by
  refine ⟨?_, ?_, ?_⟩
  · intro h1 h2
    have hv : validateTokens [effectName] = .ok () := by
      simp [validateTokens_singleton, h1, h2]
    constructor
    · rw [applyBoxAnimation_of_found p effectName box h, hv]
    · rw [hasClass, classListOf_applyBoxAnimation p effectName box e h he, hv]
      simp [mem_tokensAdd]
  · intro h1
    have hv : validateTokens [effectName] = .error .syntaxError := by
      simp [validateTokens_singleton, h1]
    constructor
    · rw [applyBoxAnimation_of_found p effectName box h, hv]
    · rw [classListOf_applyBoxAnimation p effectName box e h he, hv]
  · intro h1 h2
    have hv : validateTokens [effectName] = .error .invalidCharacterError := by
      simp [validateTokens_singleton, h1, h2]
    constructor
    · rw [applyBoxAnimation_of_found p effectName box h, hv]
    · rw [classListOf_applyBoxAnimation p effectName box e h he, hv]

/-- Witness for C9 (amended): `shake`, the empty string and `a b` on one page. -/
theorem applyBoxAnimation_completion_witness :
    (init playingDocument).interactiveBox = some 2 ∧
    ((applyBoxAnimation (init playingDocument) "shake").1 = .ok true ∧
      hasClass (applyBoxAnimation (init playingDocument) "shake").2.document 2 "shake" = true) ∧
    ((applyBoxAnimation (init playingDocument) "").1 = .error .syntaxError ∧
      classListOf (applyBoxAnimation (init playingDocument) "").2.document 2 = ["demo-box"]) ∧
    ((applyBoxAnimation (init playingDocument) "a b").1 = .error .invalidCharacterError ∧
      classListOf (applyBoxAnimation (init playingDocument) "a b").2.document 2
        = ["demo-box"]) :=
  ⟨by decide,
    (applyBoxAnimation_completion (init playingDocument) "shake" 2
      (init playingDocument).document[2] (by decide) (by decide)).1 (by decide) (by decide),
    (applyBoxAnimation_completion (init playingDocument) "" 2
      (init playingDocument).document[2] (by decide) (by decide)).2.1 (by decide),
    (applyBoxAnimation_completion (init playingDocument) "a b" 2
      (init playingDocument).document[2] (by decide) (by decide)).2.2 (by decide) (by decide)⟩

/-- Counterexample to C9: `applyBoxAnimation('')` throws `SyntaxError` instead of returning
`true`, and `applyBoxAnimation('a b')` throws `InvalidCharacterError`; neither name is in the
class list of the interactive box afterwards. -/
theorem applyBoxAnimation_total_counterexample :
    (init playingDocument).interactiveBox = some 2 ∧
    (applyBoxAnimation (init playingDocument) "").1 = .error .syntaxError ∧
    hasClass (applyBoxAnimation (init playingDocument) "").2.document 2 "" = false ∧
    (applyBoxAnimation (init playingDocument) "a b").1 = .error .invalidCharacterError ∧
    hasClass (applyBoxAnimation (init playingDocument) "a b").2.document 2 "a b" = false := by
  decide

/-! ## Loops over the animation boxes -/

theorem forEach_updateElement (callback : Page → Nat → Completion Unit) (g : Element → Element)
    (hcb : ∀ p i, callback p i = (.ok (), p.updateElement i g)) (l : List Nat) (p : Page) :
    forEach callback l p = (.ok (), l.foldl (fun q i => q.updateElement i g) p) := by
  induction l generalizing p with
  | nil => rfl
  | cons i rest ih => simp only [forEach, hcb, List.foldl_cons, ih]

theorem foldl_updateElement_animationBoxes (g : Element → Element) (l : List Nat) (p : Page) :
    (l.foldl (fun q i => q.updateElement i g) p).animationBoxes = p.animationBoxes := by
  induction l generalizing p with
  | nil => rfl
  | cons i rest ih => simp only [List.foldl_cons, ih]; rfl

theorem foldl_updateElement_interactiveBox (g : Element → Element) (l : List Nat) (p : Page) :
    (l.foldl (fun q i => q.updateElement i g) p).interactiveBox = p.interactiveBox := by
  induction l generalizing p with
  | nil => rfl
  | cons i rest ih => simp only [List.foldl_cons, ih]; rfl

theorem foldl_updateElement_animationState (g : Element → Element) (l : List Nat) (p : Page) :
    (l.foldl (fun q i => q.updateElement i g) p).animationState = p.animationState := by
  induction l generalizing p with
  | nil => rfl
  | cons i rest ih => simp only [List.foldl_cons, ih]; rfl

theorem getElem?_foldl_updateElement (g : Element → Element) (l : List Nat) (p : Page)
    (j : Nat) :
    (l.foldl (fun q i => q.updateElement i g) p).document[j]? =
      (p.document[j]?).map (g^[l.count j]) := by
  induction l generalizing p with
  | nil => simp
  | cons i rest ih =>
    simp only [List.foldl_cons, ih, getElem?_updateElement, Option.map_map]
    congr 1
    funext e
    by_cases hij : i = j
    · subst hij
      simp [Function.iterate_succ_apply]
    · have hc : (i :: rest).count j = rest.count j := by
        simp [List.count_cons, hij]
      simp [hij, hc]

theorem mem_iterate_toggledClasses (shouldRun : Bool) (l : List String) (c : String)
    (k : Nat) :
    c ∈ (toggledClasses shouldRun)^[k + 1] l ↔
      (c ∈ l ∧ c ≠ (if shouldRun then "paused" else "running")) ∨
        c = (if shouldRun then "running" else "paused") := by
  induction k with
  | zero => simp [toggledClasses, mem_tokensAdd, mem_tokensRemove]
  | succ n ih =>
    rw [Function.iterate_succ_apply']
    simp only [toggledClasses, mem_tokensAdd, mem_tokensRemove, List.mem_singleton] at ih ⊢
    rw [ih]
    constructor
    · rintro (⟨h1 | h1, _⟩ | h1)
      · exact Or.inl h1
      · exact Or.inr h1
      · exact Or.inr h1
    · rintro (h1 | h1)
      · exact Or.inl ⟨Or.inl h1, h1.2⟩
      · exact Or.inr h1

theorem classList_iterate (h : List String → List String) (e : Element) (k : Nat) :
    ((fun x : Element => { x with classList := h x.classList })^[k] e).classList
      = h^[k] e.classList := by
  induction k generalizing e with
  | zero => rfl
  | succ n ih => simp only [Function.iterate_succ_apply, ih]

theorem toggleAllCallback_eq (shouldRun : Bool) (p : Page) (i : Nat) :
    toggleAllCallback shouldRun p i =
      (.ok (), p.updateElement i (fun x =>
        { x with classList := toggledClasses shouldRun x.classList })) := by
  cases shouldRun <;>
    simp [toggleAllCallback, classListRemove_ok, classListAdd_ok, validateTokens_paused,
      validateTokens_running, updateElement_updateElement, toggledClasses]

theorem toggleAllAnimations_fst (p : Page) (shouldRun : Bool) :
    (toggleAllAnimations p shouldRun).1 = .ok shouldRun := by
  simp only [toggleAllAnimations, forEach_updateElement _ _ (toggleAllCallback_eq shouldRun)]

theorem toggleAllAnimations_animationState (p : Page) (shouldRun : Bool) :
    (toggleAllAnimations p shouldRun).2.animationState =
      { p.animationState with allAnimationsRunning := shouldRun } := by
  simp only [toggleAllAnimations, forEach_updateElement _ _ (toggleAllCallback_eq shouldRun),
    foldl_updateElement_animationState]

theorem toggleAllAnimations_animationBoxes (p : Page) (shouldRun : Bool) :
    (toggleAllAnimations p shouldRun).2.animationBoxes = p.animationBoxes := by
  simp only [toggleAllAnimations, forEach_updateElement _ _ (toggleAllCallback_eq shouldRun),
    foldl_updateElement_animationBoxes]

theorem toggleAllAnimations_interactiveBox (p : Page) (shouldRun : Bool) :
    (toggleAllAnimations p shouldRun).2.interactiveBox = p.interactiveBox := by
  simp only [toggleAllAnimations, forEach_updateElement _ _ (toggleAllCallback_eq shouldRun),
    foldl_updateElement_interactiveBox]

theorem toggleAllAnimations_document (p : Page) (shouldRun : Bool) :
    (toggleAllAnimations p shouldRun).2.document =
      (p.animationBoxes.foldl (fun q i => q.updateElement i (fun x =>
        { x with classList := toggledClasses shouldRun x.classList })) p).document := by
  simp only [toggleAllAnimations, forEach_updateElement _ _ (toggleAllCallback_eq shouldRun)]

/-- Class membership on any element after `toggleAllAnimations`. -/
theorem hasClass_toggleAllAnimations (p : Page) (shouldRun : Bool) (j : Nat) (c : String)
    (e : Element) (he : p.document[j]? = some e) :
    hasClass (toggleAllAnimations p shouldRun).2.document j c =
      if j ∈ p.animationBoxes then
        decide ((c ∈ e.classList ∧ c ≠ (if shouldRun then "paused" else "running")) ∨
          c = (if shouldRun then "running" else "paused"))
      else e.classList.contains c := by
  simp only [toggleAllAnimations_document, hasClass, classListOf, getElem?_foldl_updateElement, he, Option.map_some',
    classList_iterate]
  by_cases hj : j ∈ p.animationBoxes
  · obtain ⟨k, hk⟩ : ∃ k, p.animationBoxes.count j = k + 1 :=
      ⟨p.animationBoxes.count j - 1, by have := List.count_pos_iff.2 hj; omega⟩
    rw [hk, if_pos hj]
    have := mem_iterate_toggledClasses shouldRun e.classList c k
    have hc : ∀ l : List String, l.contains c = decide (c ∈ l) := fun l => by simp
    rw [hc]
    exact decide_eq_decide.2 this
  · rw [List.count_eq_zero_of_not_mem hj, if_neg hj]
    rfl

theorem foldl_updateElement_length (g : Element → Element) (l : List Nat) (p : Page) :
    (l.foldl (fun q i => q.updateElement i g) p).document.length = p.document.length := by
  induction l generalizing p with
  | nil => rfl
  | cons i rest ih =>
    simp only [List.foldl_cons, ih]
    simp [Page.updateElement]

theorem toggleAllAnimations_length (p : Page) (shouldRun : Bool) :
    (toggleAllAnimations p shouldRun).2.document.length = p.document.length := by
  rw [toggleAllAnimations_document, foldl_updateElement_length]

/-- Running/paused membership of an animation box after `toggleAllAnimations`. -/
theorem toggleAllAnimations_box (p : Page) (shouldRun : Bool) (box : Nat)
    (hbox : box ∈ p.animationBoxes) (hlt : box < p.document.length) :
    hasClass (toggleAllAnimations p shouldRun).2.document box "running" = shouldRun ∧
    hasClass (toggleAllAnimations p shouldRun).2.document box "paused" = !shouldRun := by
  have he : p.document[box]? = some p.document[box] := List.getElem?_eq_getElem hlt
  rw [hasClass_toggleAllAnimations p shouldRun box "running" _ he,
    hasClass_toggleAllAnimations p shouldRun box "paused" _ he]
  cases shouldRun <;> simp [hbox]

/-- Claim C4. Every call `toggleAllAnimations(b)` returns `b`, sets the flag
`allAnimationsRunning` to `b` and leaves every animation box with `running` present exactly
when `b` holds and `paused` present exactly when it does not; so `toggleAllAnimations(true)`
followed by `toggleAllAnimations(false)` returns `false`, leaves the flag `false` and leaves
every animation box with `paused` and without `running`. -/
theorem toggleAllAnimations_run_then_pause (p : Page) (b : Bool) :
    ((toggleAllAnimations p b).1 = .ok b ∧
      (toggleAllAnimations p b).2.animationState.allAnimationsRunning = b ∧
      ∀ box ∈ p.animationBoxes, box < p.document.length →
        hasClass (toggleAllAnimations p b).2.document box "running" = b ∧
        hasClass (toggleAllAnimations p b).2.document box "paused" = !b) ∧
    ((toggleAllAnimations (toggleAllAnimations p true).2 false).1 = .ok false ∧
      (toggleAllAnimations (toggleAllAnimations p true).2
        false).2.animationState.allAnimationsRunning = false ∧
      ∀ box ∈ p.animationBoxes, box < p.document.length →
        hasClass (toggleAllAnimations (toggleAllAnimations p true).2 false).2.document
          box "paused" = true ∧
        hasClass (toggleAllAnimations (toggleAllAnimations p true).2 false).2.document
          box "running" = false) := by
  refine ⟨⟨toggleAllAnimations_fst p b, ?_, fun box hbox hlt =>
      toggleAllAnimations_box p b box hbox hlt⟩,
    toggleAllAnimations_fst _ false, ?_, ?_⟩
  · rw [toggleAllAnimations_animationState]
  · rw [toggleAllAnimations_animationState]
  · intro box hbox hlt
    have h := toggleAllAnimations_box (toggleAllAnimations p true).2 false box
      (by rw [toggleAllAnimations_animationBoxes]; exact hbox)
      (by rw [toggleAllAnimations_length]; exact hlt)
    exact ⟨h.2, h.1⟩

/-- Witness for C4: the animation box of `playingDocument`. -/
theorem toggleAllAnimations_run_then_pause_witness :
    1 ∈ (init playingDocument).animationBoxes ∧
    1 < (init playingDocument).document.length ∧
    (hasClass (toggleAllAnimations (init playingDocument) true).2.document 1 "running" = true ∧
      hasClass (toggleAllAnimations (init playingDocument) true).2.document 1 "paused"
        = !true) ∧
    (hasClass (toggleAllAnimations (toggleAllAnimations (init playingDocument) true).2
        false).2.document 1 "paused" = true ∧
      hasClass (toggleAllAnimations (toggleAllAnimations (init playingDocument) true).2
        false).2.document 1 "running" = false) :=
  ⟨by decide, by decide,
    (toggleAllAnimations_run_then_pause (init playingDocument) true).1.2.2 1
      (by decide) (by decide),
    (toggleAllAnimations_run_then_pause (init playingDocument) true).2.2.2 1
      (by decide) (by decide)⟩

/-! ## Frame lemmas: classes an operation does not touch -/

theorem hasClass_updateElement_of_preserves (p : Page) (i : Nat) (f : Element → Element)
    (j : Nat) (c : String) (hf : ∀ e, c ∈ (f e).classList ↔ c ∈ e.classList) :
    hasClass (p.updateElement i f).document j c = hasClass p.document j c := by
  simp only [hasClass, classListOf, getElem?_updateElement]
  cases hj : p.document[j]? with
  | none => rfl
  | some e =>
    by_cases hij : i = j
    · simp [hij, hf e]
    · simp [hij]

theorem hasClass_foldl_updateElement_of_preserves (g : Element → Element) (l : List Nat)
    (p : Page) (j : Nat) (c : String) (hg : ∀ e, c ∈ (g e).classList ↔ c ∈ e.classList) :
    hasClass (l.foldl (fun q i => q.updateElement i g) p).document j c
      = hasClass p.document j c := by
  induction l generalizing p with
  | nil => rfl
  | cons i rest ih =>
    simp only [List.foldl_cons, ih]
    exact hasClass_updateElement_of_preserves p i g j c hg

/-- Function `toggleAnimation` touches no class other than `paused` and `running`. -/
theorem hasClass_toggleAnimation_of_ne (engine : SelectorEngine) (p : Page)
    (targetId : String) (j : Nat) (c : String) (h1 : c ≠ "paused") (h2 : c ≠ "running") :
    hasClass (toggleAnimation engine p targetId).2.document j c = hasClass p.document j c := by
  cases hq : querySelectorBox engine p.document targetId with
  | error err => rw [toggleAnimation_of_error engine p targetId err hq]
  | ok found =>
    cases found with
    | none => rw [toggleAnimation_of_null engine p targetId hq]
    | some box =>
      rw [toggleAnimation_of_found engine p targetId box hq]
      split
      · apply hasClass_updateElement_of_preserves
        intro e
        simp [mem_tokensAdd, mem_tokensRemove, h1, h2]
      · apply hasClass_updateElement_of_preserves
        intro e
        simp [mem_tokensAdd, mem_tokensRemove, h1, h2]

/-- Function `toggleAllAnimations` touches no class other than `paused` and `running`. -/
theorem hasClass_toggleAllAnimations_of_ne (p : Page) (shouldRun : Bool) (j : Nat)
    (c : String) (h1 : c ≠ "paused") (h2 : c ≠ "running") :
    hasClass (toggleAllAnimations p shouldRun).2.document j c = hasClass p.document j c := by
  rw [toggleAllAnimations_document]
  apply hasClass_foldl_updateElement_of_preserves
  intro e
  cases shouldRun <;> simp [toggledClasses, mem_tokensAdd, mem_tokensRemove, h1, h2]

theorem applyBoxAnimation_of_not_found (p : Page) (animationName : String)
    (h : p.interactiveBox = none) :
    applyBoxAnimation p animationName = (.error .typeError, p) := by
  simp only [applyBoxAnimation, h]

/-- Function `applyBoxAnimation` touches no class other than the four effect names and
its argument. -/
theorem hasClass_applyBoxAnimation_of_ne (p : Page) (animationName : String) (j : Nat)
    (c : String) (h1 : c ∉ animationClasses) (h2 : c ≠ animationName) :
    hasClass (applyBoxAnimation p animationName).2.document j c = hasClass p.document j c := by
  cases hq : p.interactiveBox with
  | none => rw [applyBoxAnimation_of_not_found p animationName hq]
  | some box =>
    rw [applyBoxAnimation_of_found p animationName box hq]
    cases hv : validateTokens [animationName] with
    | error err =>
      apply hasClass_updateElement_of_preserves
      intro e
      simp [mem_tokensRemove, h1]
    | ok u =>
      apply hasClass_updateElement_of_preserves
      intro e
      simp [mem_tokensAdd, mem_tokensRemove, h1, h2]

theorem ne_paused_running_of_mem_animationClasses (c : String) (h : c ∈ animationClasses) :
    c ≠ "paused" ∧ c ≠ "running" := by
  simp only [animationClasses, List.mem_cons, List.mem_singleton, List.not_mem_nil, or_false] at h
  rcases h with rfl | rfl | rfl | rfl <;> decide

/-- Claim C7 (amended). For every page and every argument, whatever the lookup of line 15
answers, `toggleAnimation` and
`toggleAllAnimations` leave the presence of each effect name (`bounce`, `shake`, `flip`,
`swing`) on every element unchanged; and `applyBoxAnimation(effectName)` leaves the presence
of `paused` on every element unchanged when `effectName` is not `paused`, and the presence of
`running` unchanged when `effectName` is not `running`. -/
theorem membership_axes_independent (engine : SelectorEngine) (p : Page) :
    (∀ (targetId : String) (j : Nat) (c : String), c ∈ animationClasses →
      hasClass (toggleAnimation engine p targetId).2.document j c = hasClass p.document j c) ∧
    (∀ (shouldRun : Bool) (j : Nat) (c : String), c ∈ animationClasses →
      hasClass (toggleAllAnimations p shouldRun).2.document j c = hasClass p.document j c) ∧
    (∀ (effectName : String) (j : Nat) (c : String), c = "paused" ∨ c = "running" →
      effectName ≠ c →
      hasClass (applyBoxAnimation p effectName).2.document j c = hasClass p.document j c) := by
  refine ⟨?_, ?_, ?_⟩
  · intro targetId j c hc
    have h := ne_paused_running_of_mem_animationClasses c hc
    exact hasClass_toggleAnimation_of_ne engine p targetId j c h.1 h.2
  · intro shouldRun j c hc
    have h := ne_paused_running_of_mem_animationClasses c hc
    exact hasClass_toggleAllAnimations_of_ne p shouldRun j c h.1 h.2
  · intro effectName j c hc hne
    apply hasClass_applyBoxAnimation_of_ne p effectName j c
    · rcases hc with rfl | rfl <;> decide
    · exact fun h => hne h.symm

/-- Witness for C7 (amended): on `playingDocument` the interactive box keeps `flip` through
both toggles, and `applyBoxAnimation('shake')` leaves its `running` membership as it was. -/
theorem membership_axes_independent_witness :
    "flip" ∈ animationClasses ∧ "shake" ≠ "running" ∧
    hasClass (toggleAnimation nullEngine (init playingDocument) "card1").2.document 2 "flip"
      = hasClass (init playingDocument).document 2 "flip" ∧
    hasClass (toggleAllAnimations (init playingDocument) false).2.document 2 "flip"
      = hasClass (init playingDocument).document 2 "flip" ∧
    hasClass (applyBoxAnimation (init playingDocument) "shake").2.document 2 "running"
      = hasClass (init playingDocument).document 2 "running" :=
  ⟨by decide, by decide,
    (membership_axes_independent nullEngine (init playingDocument)).1 "card1" 2 "flip" (by decide),
    (membership_axes_independent nullEngine (init playingDocument)).2.1 false 2 "flip" (by decide),
    (membership_axes_independent nullEngine (init playingDocument)).2.2 "shake" 2 "running"
      (Or.inr rfl) (by decide)⟩

/-- Counterexample to C7: the interactive box of `playingDocument` has no `paused`; after
`applyBoxAnimation('paused')` it has. -/
theorem applyBoxAnimation_paused_counterexample :
    (init playingDocument).interactiveBox = some 2 ∧
    hasClass (init playingDocument).document 2 "paused" = false ∧
    (applyBoxAnimation (init playingDocument) "paused").1 = .ok true ∧
    hasClass (applyBoxAnimation (init playingDocument) "paused").2.document 2 "paused"
      = true := by
  decide

/-! ## Function `resetAllAnimations` -/

theorem resetCallback_eq (p : Page) (i : Nat) :
    resetCallback p i = (.ok (), p.updateElement i resetBox) := by
  simp only [resetCallback, classListRemove_ok _ _ _ validateTokens_paused_running,
    updateElement_updateElement]
  rfl

theorem validateTokens_effects :
    validateTokens ["bounce", "shake", "flip", "swing"] = .ok () := rfl

/-- What a call of `resetAllAnimations` does when the interactive box exists. -/
theorem resetAllAnimations_of_found (p : Page) (ib : Nat) (h : p.interactiveBox = some ib) :
    (resetAllAnimations p).1 = .ok true ∧
    (resetAllAnimations p).2.animationState.allAnimationsRunning = true ∧
    (resetAllAnimations p).2.document =
      ((p.animationBoxes.foldl (fun q i => q.updateElement i resetBox) p).updateElement ib
        (fun e => { e with classList := tokensRemove e.classList animationClasses })).document := by
  simp only [resetAllAnimations, forEach_updateElement _ _ resetCallback_eq,
    foldl_updateElement_interactiveBox, h, classListRemove_ok _ _ _ validateTokens_effects]
  exact ⟨trivial, trivial, rfl⟩

theorem resetBox_iterate_succ (e : Element) (k : Nat) :
    "paused" ∉ (resetBox^[k + 1] e).classList ∧ "running" ∉ (resetBox^[k + 1] e).classList ∧
    (resetBox^[k + 1] e).style.backgroundColor = "" ∧
    (resetBox^[k + 1] e).style.animation = "" := by
  rw [Function.iterate_succ_apply']
  simp [resetBox, mem_tokensRemove]

/-- Element at position `j` after `resetAllAnimations`. -/
theorem getElem?_resetAllAnimations (p : Page) (ib : Nat) (h : p.interactiveBox = some ib)
    (j : Nat) :
    (resetAllAnimations p).2.document[j]? =
      (p.document[j]?).map (fun e =>
        if ib = j then
          (fun x : Element => { x with classList := tokensRemove x.classList animationClasses })
            (resetBox^[p.animationBoxes.count j] e)
        else resetBox^[p.animationBoxes.count j] e) := by
  rw [(resetAllAnimations_of_found p ib h).2.2, getElem?_updateElement,
    getElem?_foldl_updateElement, Option.map_map]
  rfl

/-- Claim C3 (amended). For every prior page state in which the interactive box exists, after
`resetAllAnimations()` every animation box has neither `paused` nor `running` and has an
empty inline background colour and an empty inline animation; the interactive box carries no
effect name (`bounce`, `shake`, `flip`, `swing`), while every other element keeps the effect
names it had; the flag `allAnimationsRunning` is `true`; and the call returns `true`. -/
theorem resetAllAnimations_clears (p : Page) (ib : Nat) (h : p.interactiveBox = some ib) :
    (resetAllAnimations p).1 = .ok true ∧
    (resetAllAnimations p).2.animationState.allAnimationsRunning = true ∧
    (∀ box ∈ p.animationBoxes, box < p.document.length →
      hasClass (resetAllAnimations p).2.document box "paused" = false ∧
      hasClass (resetAllAnimations p).2.document box "running" = false ∧
      ∃ e, (resetAllAnimations p).2.document[box]? = some e ∧
        e.style.backgroundColor = "" ∧ e.style.animation = "") ∧
    (∀ c ∈ animationClasses, hasClass (resetAllAnimations p).2.document ib c = false) ∧
    (∀ (j : Nat) (c : String), j ≠ ib → c ∈ animationClasses →
      hasClass (resetAllAnimations p).2.document j c = hasClass p.document j c) := by
  refine ⟨(resetAllAnimations_of_found p ib h).1, (resetAllAnimations_of_found p ib h).2.1,
    ?_, ?_, ?_⟩
  · intro box hbox hlt
    have he : p.document[box]? = some p.document[box] := List.getElem?_eq_getElem hlt
    obtain ⟨k, hk⟩ : ∃ k, p.animationBoxes.count box = k + 1 :=
      ⟨p.animationBoxes.count box - 1, by have := List.count_pos_iff.2 hbox; omega⟩
    obtain ⟨h1, h2, h3, h4⟩ := resetBox_iterate_succ p.document[box] k
    have hget := getElem?_resetAllAnimations p ib h box
    rw [he, hk, Option.map_some'] at hget
    simp only [hasClass, classListOf, hget]
    generalize resetBox^[k + 1] p.document[box] = x at h1 h2 h3 h4
    by_cases hib : ib = box
    · simp only [if_pos hib]
      refine ⟨?_, ?_, _, rfl, h3, h4⟩
      · simp [mem_tokensRemove, h1]
      · simp [mem_tokensRemove, h2]
    · simp only [if_neg hib]
      refine ⟨?_, ?_, _, rfl, h3, h4⟩
      · simp [h1]
      · simp [h2]
  · intro c hc
    have hget := getElem?_resetAllAnimations p ib h ib
    simp only [hasClass, classListOf, hget]
    cases p.document[ib]? with
    | none => rfl
    | some e => simp [mem_tokensRemove, hc]
  · intro j c hj hc
    have hne := ne_paused_running_of_mem_animationClasses c hc
    rw [(resetAllAnimations_of_found p ib h).2.2,
      hasClass_updateElement_ne _ ib j _ c (fun hx => hj hx.symm)]
    apply hasClass_foldl_updateElement_of_preserves
    intro e
    simp [resetBox, mem_tokensRemove, hne.1, hne.2]

/-- Witness for C3 (amended): reset of the page of `bouncingDocument`. -/
theorem resetAllAnimations_clears_witness :
    (init bouncingDocument).interactiveBox = some 2 ∧
    1 ∈ (init bouncingDocument).animationBoxes ∧
    (resetAllAnimations (init bouncingDocument)).1 = .ok true ∧
    (hasClass (resetAllAnimations (init bouncingDocument)).2.document 1 "paused" = false ∧
      hasClass (resetAllAnimations (init bouncingDocument)).2.document 1 "running" = false ∧
      ∃ e, (resetAllAnimations (init bouncingDocument)).2.document[1]? = some e ∧
        e.style.backgroundColor = "" ∧ e.style.animation = "") ∧
    hasClass (resetAllAnimations (init bouncingDocument)).2.document 2 "swing" = false ∧
    hasClass (resetAllAnimations (init bouncingDocument)).2.document 1 "bounce"
      = hasClass (init bouncingDocument).document 1 "bounce" :=
  ⟨by decide, by decide,
    (resetAllAnimations_clears (init bouncingDocument) 2 (by decide)).1,
    (resetAllAnimations_clears (init bouncingDocument) 2 (by decide)).2.2.1 1
      (by decide) (by decide),
    (resetAllAnimations_clears (init bouncingDocument) 2 (by decide)).2.2.2.1 "swing"
      (by decide),
    (resetAllAnimations_clears (init bouncingDocument) 2 (by decide)).2.2.2.2 1 "bounce"
      (by decide) (by decide)⟩

/-- Counterexample to C3: the animation box of `bouncingDocument` carries `bounce` and is
not the interactive box; `resetAllAnimations()` returns `true` and the box still carries
`bounce`. -/
theorem resetAllAnimations_effect_counterexample :
    (init bouncingDocument).animationBoxes = [1] ∧
    (init bouncingDocument).interactiveBox = some 2 ∧
    (resetAllAnimations (init bouncingDocument)).1 = .ok true ∧
    hasClass (resetAllAnimations (init bouncingDocument)).2.document 1 "bounce" = true := by
  decide

/-! ## Mutual exclusion of `paused` and `running` -/

theorem toggleAnimation_interactiveBox (engine : SelectorEngine) (p : Page)
    (targetId : String) :
    (toggleAnimation engine p targetId).2.interactiveBox = p.interactiveBox := by
  cases hq : querySelectorBox engine p.document targetId with
  | error err => rw [toggleAnimation_of_error engine p targetId err hq]
  | ok found =>
    cases found with
    | none => rw [toggleAnimation_of_null engine p targetId hq]
    | some box =>
      rw [toggleAnimation_of_found engine p targetId box hq]
      split <;> rfl

/-- What a call of `changeColor` does, by the answer of the lookup of line 35. -/
theorem changeColor_eq (engine : SelectorEngine) (p : Page) (targetId : String)
    (r : RandomDraw) :
    changeColor engine p targetId r =
      match querySelectorBox engine p.document targetId with
      | .error err => (.error err, p)
      | .ok none => (.error .typeError, p)
      | .ok (some b) =>
        (.ok colors[floorTimes r colors.length]?,
          p.updateElement b (fun e => setBackgroundColor e colors[floorTimes r colors.length]?)) := by
  simp only [changeColor]
  cases querySelectorBox engine p.document targetId with
  | error err => rfl
  | ok found => cases found <;> rfl

theorem changeColor_interactiveBox (engine : SelectorEngine) (p : Page) (targetId : String)
    (r : RandomDraw) :
    (changeColor engine p targetId r).2.interactiveBox = p.interactiveBox := by
  rw [changeColor_eq]
  cases querySelectorBox engine p.document targetId with
  | error err => rfl
  | ok found => cases found <;> rfl

theorem applyBoxAnimation_interactiveBox (p : Page) (animationName : String) :
    (applyBoxAnimation p animationName).2.interactiveBox = p.interactiveBox := by
  cases hq : p.interactiveBox with
  | none => rw [applyBoxAnimation_of_not_found p animationName hq]; exact hq
  | some box =>
    rw [applyBoxAnimation_of_found p animationName box hq]
    split <;> exact hq

theorem resetAllAnimations_interactiveBox (p : Page) :
    (resetAllAnimations p).2.interactiveBox = p.interactiveBox := by
  cases hq : p.interactiveBox with
  | none =>
    simp only [resetAllAnimations, forEach_updateElement _ _ resetCallback_eq,
      foldl_updateElement_interactiveBox, hq]
  | some ib =>
    simp only [resetAllAnimations, forEach_updateElement _ _ resetCallback_eq,
      foldl_updateElement_interactiveBox, hq,
      classListRemove_ok _ _ _ validateTokens_effects]
    exact (foldl_updateElement_interactiveBox _ _ _).trans hq

theorem run_interactiveBox (engine : SelectorEngine) (p : Page) (call : Call) :
    (call.run engine p).interactiveBox = p.interactiveBox := by
  cases call with
  | toggleAnimation targetId => exact toggleAnimation_interactiveBox engine p targetId
  | changeColor targetId r => exact changeColor_interactiveBox engine p targetId r
  | applyBoxAnimation animationName => exact applyBoxAnimation_interactiveBox p animationName
  | toggleAllAnimations shouldRun => exact toggleAllAnimations_interactiveBox p shouldRun
  | resetAllAnimations => exact resetAllAnimations_interactiveBox p

theorem exclusive_of_eq (doc doc' : List Element) (j : Nat)
    (hp : hasClass doc' j "paused" = hasClass doc j "paused")
    (hr : hasClass doc' j "running" = hasClass doc j "running")
    (h : Exclusive doc j) : Exclusive doc' j := by
  unfold Exclusive at *
  rw [hp, hr]
  exact h

theorem exclusive_of_imp (doc doc' : List Element) (j : Nat)
    (hp : hasClass doc' j "paused" = true → hasClass doc j "paused" = true)
    (hr : hasClass doc' j "running" = true → hasClass doc j "running" = true)
    (h : Exclusive doc j) : Exclusive doc' j :=
  fun hboth => h ⟨hp hboth.1, hr hboth.2⟩

theorem hasClass_of_getElem?_none (doc : List Element) (j : Nat) (c : String)
    (h : doc[j]? = none) : hasClass doc j c = false := by
  simp [hasClass, classListOf, h]

theorem toggleAnimation_exclusive (engine : SelectorEngine) (p : Page) (targetId : String)
    (j : Nat) (h : Exclusive p.document j) :
    Exclusive (toggleAnimation engine p targetId).2.document j := by
  cases hq : querySelectorBox engine p.document targetId with
  | error err => rw [toggleAnimation_of_error engine p targetId err hq]; exact h
  | ok found =>
    cases found with
    | none => rw [toggleAnimation_of_null engine p targetId hq]; exact h
    | some box =>
      by_cases hj : box = j
      · subst hj
        cases he : p.document[box]? with
        | none =>
          have hnone : (toggleAnimation engine p targetId).2.document[box]? = none := by
            rw [toggleAnimation_of_found engine p targetId box hq]
            split <;> simp [getElem?_updateElement, he]
          unfold Exclusive
          rw [hasClass_of_getElem?_none _ box "paused" hnone]
          simp
        | some e =>
          obtain ⟨_, h2, h3⟩ := toggleAnimation_effect engine p targetId box e hq he
          unfold Exclusive
          rw [h2, h3]
          cases hasClass p.document box "paused" <;> simp
      · apply exclusive_of_eq p.document _ j _ _ h
        · rw [toggleAnimation_of_found engine p targetId box hq]
          split <;> exact hasClass_updateElement_ne p box j _ _ hj
        · rw [toggleAnimation_of_found engine p targetId box hq]
          split <;> exact hasClass_updateElement_ne p box j _ _ hj

theorem classList_setBackgroundColor (e : Element) (v : Option String) :
    (setBackgroundColor e v).classList = e.classList := by
  cases v with
  | none => rfl
  | some c =>
    simp only [setBackgroundColor]
    cases cssColor c <;> rfl

theorem hasClass_changeColor (engine : SelectorEngine) (p : Page) (targetId : String)
    (r : RandomDraw) (j : Nat) (c : String) :
    hasClass (changeColor engine p targetId r).2.document j c = hasClass p.document j c := by
  rw [changeColor_eq]
  cases querySelectorBox engine p.document targetId with
  | error err => rfl
  | ok found =>
    cases found with
    | none => rfl
    | some b =>
      apply hasClass_updateElement_of_preserves
      intro e
      rw [classList_setBackgroundColor]

theorem changeColor_exclusive (engine : SelectorEngine) (p : Page) (targetId : String)
    (r : RandomDraw) (j : Nat) (h : Exclusive p.document j) :
    Exclusive (changeColor engine p targetId r).2.document j :=
  exclusive_of_eq p.document _ j (hasClass_changeColor engine p targetId r j "paused")
    (hasClass_changeColor engine p targetId r j "running") h

theorem hasClass_applyBoxAnimation_of_not_interactive (p : Page) (animationName : String)
    (j : Nat) (c : String) (hj : p.interactiveBox ≠ some j) :
    hasClass (applyBoxAnimation p animationName).2.document j c = hasClass p.document j c := by
  cases hq : p.interactiveBox with
  | none => rw [applyBoxAnimation_of_not_found p animationName hq]
  | some box =>
    have hne : box ≠ j := fun hx => hj (by rw [hq, hx])
    rw [applyBoxAnimation_of_found p animationName box hq]
    split <;> exact hasClass_updateElement_ne p box j _ _ hne

theorem applyBoxAnimation_exclusive (p : Page) (animationName : String) (j : Nat)
    (h : Exclusive p.document j)
    (hsafe : p.interactiveBox ≠ some j ∨
      (animationName ≠ "paused" ∧ animationName ≠ "running")) :
    Exclusive (applyBoxAnimation p animationName).2.document j := by
  rcases hsafe with hj | ⟨h1, h2⟩
  · exact exclusive_of_eq p.document _ j
      (hasClass_applyBoxAnimation_of_not_interactive p animationName j "paused" hj)
      (hasClass_applyBoxAnimation_of_not_interactive p animationName j "running" hj) h
  · exact exclusive_of_eq p.document _ j
      (hasClass_applyBoxAnimation_of_ne p animationName j "paused" (by decide)
        (fun hx => h1 hx.symm))
      (hasClass_applyBoxAnimation_of_ne p animationName j "running" (by decide)
        (fun hx => h2 hx.symm)) h

theorem toggleAllAnimations_exclusive (p : Page) (shouldRun : Bool) (j : Nat)
    (h : Exclusive p.document j) :
    Exclusive (toggleAllAnimations p shouldRun).2.document j := by
  cases he : p.document[j]? with
  | none =>
    have hnone : (toggleAllAnimations p shouldRun).2.document[j]? = none := by
      rw [toggleAllAnimations_document, getElem?_foldl_updateElement, he]
      rfl
    unfold Exclusive
    rw [hasClass_of_getElem?_none _ j "paused" hnone]
    simp
  | some e =>
    unfold Exclusive at *
    rw [hasClass_toggleAllAnimations p shouldRun j "paused" e he,
      hasClass_toggleAllAnimations p shouldRun j "running" e he]
    rw [hasClass_eq p.document j "paused" e he, hasClass_eq p.document j "running" e he] at h
    by_cases hj : j ∈ p.animationBoxes
    · cases shouldRun <;> simp [hj]
    · simpa [hj] using h

theorem hasClass_foldl_updateElement_of_subset (g : Element → Element) (l : List Nat)
    (p : Page) (j : Nat) (c : String) (hg : ∀ e, c ∈ (g e).classList → c ∈ e.classList)
    (h : hasClass (l.foldl (fun q i => q.updateElement i g) p).document j c = true) :
    hasClass p.document j c = true := by
  simp only [hasClass, classListOf, getElem?_foldl_updateElement] at h ⊢
  cases he : p.document[j]? with
  | none => simp [he] at h
  | some e =>
    simp only [he, Option.map_some', List.contains_iff_exists_mem_beq, beq_iff_eq] at h ⊢
    obtain ⟨a, ha, rfl⟩ := h
    refine ⟨c, ?_, rfl⟩
    have key : ∀ (k : Nat) (x : Element), c ∈ (g^[k] x).classList → c ∈ x.classList := by
      intro k
      induction k with
      | zero => intro x hx; exact hx
      | succ n ih =>
        intro x hx
        rw [Function.iterate_succ_apply] at hx
        exact hg x (ih (g x) hx)
    exact key _ e ha

theorem hasClass_resetAllAnimations_imp (p : Page) (j : Nat) (c : String)
    (hc : c ∉ animationClasses)
    (h : hasClass (resetAllAnimations p).2.document j c = true) :
    hasClass p.document j c = true := by
  apply hasClass_foldl_updateElement_of_subset resetBox p.animationBoxes p j c
  · intro e he
    exact ((mem_tokensRemove _ _ _).1 he).1
  · cases hq : p.interactiveBox with
    | none =>
      simp only [resetAllAnimations, forEach_updateElement _ _ resetCallback_eq,
        foldl_updateElement_interactiveBox, hq] at h
      exact h
    | some ib =>
      rw [(resetAllAnimations_of_found p ib hq).2.2] at h
      rw [← h]
      symm
      apply hasClass_updateElement_of_preserves
      intro e
      simp [mem_tokensRemove, hc]

theorem resetAllAnimations_exclusive (p : Page) (j : Nat) (h : Exclusive p.document j) :
    Exclusive (resetAllAnimations p).2.document j :=
  exclusive_of_imp p.document _ j
    (hasClass_resetAllAnimations_imp p j "paused" (by decide))
    (hasClass_resetAllAnimations_imp p j "running" (by decide)) h

theorem run_exclusive (engine : SelectorEngine) (p : Page) (call : Call) (j : Nat)
    (h : Exclusive p.document j)
    (hsafe : p.interactiveBox ≠ some j ∨
      (call ≠ .applyBoxAnimation "paused" ∧ call ≠ .applyBoxAnimation "running")) :
    Exclusive (call.run engine p).document j := by
  cases call with
  | toggleAnimation targetId => exact toggleAnimation_exclusive engine p targetId j h
  | changeColor targetId r => exact changeColor_exclusive engine p targetId r j h
  | applyBoxAnimation animationName =>
    apply applyBoxAnimation_exclusive p animationName j h
    rcases hsafe with hj | ⟨h1, h2⟩
    · exact Or.inl hj
    · exact Or.inr ⟨fun hx => h1 (by rw [hx]), fun hx => h2 (by rw [hx])⟩
  | toggleAllAnimations shouldRun => exact toggleAllAnimations_exclusive p shouldRun j h
  | resetAllAnimations => exact resetAllAnimations_exclusive p j h

/-- Claim C10 (amended). Whatever the lookups of lines 15 and 35 answer, an element that
does not carry both `paused` and `running` does not carry both after any finite sequence of
`toggleAnimation`, `toggleAllAnimations`, `applyBoxAnimation`, `changeColor` and
`resetAllAnimations` calls, provided the element is not the interactive box or the sequence
has no call `applyBoxAnimation('paused')` and no call `applyBoxAnimation('running')`. -/
theorem runCalls_exclusive (engine : SelectorEngine) (p : Page) (calls : List Call) (j : Nat)
    (h : Exclusive p.document j)
    (hsafe : p.interactiveBox ≠ some j ∨
      (Call.applyBoxAnimation "paused" ∉ calls ∧ Call.applyBoxAnimation "running" ∉ calls)) :
    Exclusive (runCalls engine p calls).document j := by
  induction calls generalizing p with
  | nil => exact h
  | cons call rest ih =>
    simp only [runCalls, List.foldl_cons]
    apply ih (call.run engine p)
    · apply run_exclusive engine p call j h
      rcases hsafe with hj | ⟨h1, h2⟩
      · exact Or.inl hj
      · exact Or.inr ⟨fun hx => h1 (by rw [hx]; exact List.mem_cons_self _ _),
          fun hx => h2 (by rw [hx]; exact List.mem_cons_self _ _)⟩
    · rw [run_interactiveBox]
      rcases hsafe with hj | ⟨h1, h2⟩
      · exact Or.inl hj
      · exact Or.inr ⟨fun hx => h1 (List.mem_cons_of_mem _ hx),
          fun hx => h2 (List.mem_cons_of_mem _ hx)⟩

/-- Witness for C10 (amended): on the page of `interactiveDocument` the interactive box,
which is an animation box, stays exclusive through a sequence that applies `shake`. -/
theorem runCalls_exclusive_witness :
    Exclusive (init interactiveDocument).document 1 ∧
    (Call.applyBoxAnimation "paused" ∉
        [Call.toggleAllAnimations true, Call.applyBoxAnimation "shake",
          Call.toggleAnimation "demo", Call.resetAllAnimations] ∧
      Call.applyBoxAnimation "running" ∉
        [Call.toggleAllAnimations true, Call.applyBoxAnimation "shake",
          Call.toggleAnimation "demo", Call.resetAllAnimations]) ∧
    Exclusive (runCalls nullEngine (init interactiveDocument)
      [Call.toggleAllAnimations true, Call.applyBoxAnimation "shake",
        Call.toggleAnimation "demo", Call.resetAllAnimations]).document 1 :=
  ⟨by decide, by decide,
    runCalls_exclusive nullEngine (init interactiveDocument)
      [Call.toggleAllAnimations true, Call.applyBoxAnimation "shake",
        Call.toggleAnimation "demo", Call.resetAllAnimations] 1 (by decide)
      (Or.inr (by decide))⟩

/-- Counterexample to C10: on the page of `interactiveDocument` no element carries both
classes at the start; after `toggleAllAnimations(true)` and `applyBoxAnimation('paused')`
the animation box at position 1 carries both `paused` and `running`. -/
theorem runCalls_exclusive_counterexample :
    (init interactiveDocument).animationBoxes = [1] ∧
    (init interactiveDocument).interactiveBox = some 1 ∧
    Exclusive (init interactiveDocument).document 0 ∧
    Exclusive (init interactiveDocument).document 1 ∧
    hasClass (runCalls nullEngine (init interactiveDocument)
      [Call.toggleAllAnimations true, Call.applyBoxAnimation "paused"]).document 1 "paused"
        = true ∧
    hasClass (runCalls nullEngine (init interactiveDocument)
      [Call.toggleAllAnimations true, Call.applyBoxAnimation "paused"]).document 1 "running"
        = true := by
  decide

/-! ## Rounding to binary64 -/

theorem excessBits_of_lt (fuel n : Nat) (h : n < 2 ^ 53) : excessBits fuel n = 0 := by
  cases fuel with
  | zero => rfl
  | succ f => simp only [excessBits, if_pos h]

theorem excessBits_le (k : Nat) : ∀ fuel n : Nat, n < 2 ^ (53 + k) → excessBits fuel n ≤ k := by
  induction k with
  | zero =>
    intro fuel n h
    rw [excessBits_of_lt fuel n h]
  | succ k ih =>
    intro fuel n h
    cases fuel with
    | zero => exact Nat.zero_le _
    | succ f =>
      simp only [excessBits]
      split
      · exact Nat.zero_le _
      · have h2 : n / 2 < 2 ^ (53 + k) := by
          have hp : 2 ^ (53 + (k + 1)) = 2 * 2 ^ (53 + k) := by
            rw [← Nat.add_assoc, Nat.pow_succ, Nat.mul_comm]
          rw [hp] at h
          omega
        have := ih f (n / 2) h2
        omega

theorem roundHalfEven_zero (n : Nat) : roundHalfEven n 0 = n := by
  simp [roundHalfEven, Nat.mod_one]

theorem roundHalfEven_mul_le (n s : Nat) :
    2 * (roundHalfEven n s * 2 ^ s) ≤ 2 * n + 2 ^ s := by
  have hn : 2 ^ s * (n / 2 ^ s) + n % 2 ^ s = n := Nat.div_add_mod n (2 ^ s)
  simp only [roundHalfEven]
  generalize 2 ^ s = P at hn ⊢
  generalize hq : n / P = q at hn ⊢
  generalize n % P = r at hn ⊢
  have hcomm : q * P = P * q := Nat.mul_comm q P
  have hsucc : (q + 1) * P = P * q + P := by rw [Nat.add_mul, Nat.one_mul, hcomm]
  split
  · rw [hcomm]; omega
  · split
    · rw [hsucc]; omega
    · split
      · rw [hcomm]; omega
      · rw [hsucc]; omega

theorem roundSignificand_of_lt (n : Nat) (h : n < 2 ^ 53) : roundSignificand n = n := by
  simp [roundSignificand, excessBits_of_lt n n h, roundHalfEven_zero]

/-- Rounding moves a number below `2^56` by at most 4. -/
theorem roundSignificand_le (n : Nat) (h : n < 2 ^ 56) : roundSignificand n ≤ n + 4 := by
  have hs : excessBits n n ≤ 3 := excessBits_le 3 n n h
  have hpow : 2 ^ excessBits n n ≤ 2 ^ 3 := Nat.pow_le_pow_right (by decide) hs
  have hb := roundHalfEven_mul_le n (excessBits n n)
  simp only [roundSignificand]
  omega

theorem floorTimes_lt (r : RandomDraw) (hr : r.isDouble) :
    floorTimes r colors.length < colors.length := by
  obtain ⟨hm, he, _⟩ := hr
  have hlen : colors.length = 5 := rfl
  rw [hlen]
  have hN : r.mant * 5 < 2 ^ 56 := by omega
  have hround := roundSignificand_le (r.mant * 5) hN
  have hpow : 2 ^ 53 ≤ 2 ^ r.exp := Nat.pow_le_pow_right (by decide) he
  simp only [floorTimes]
  rw [Nat.div_lt_iff_lt_mul (Nat.pos_of_ne_zero (by positivity))]
  omega

theorem colors_cssColor (c : String) (h : c ∈ colors) :
    ∃ declared, cssColor c = some declared := by
  simp only [colors, List.mem_cons, List.mem_singleton, List.not_mem_nil, or_false] at h
  rcases h with rfl | rfl | rfl | rfl | rfl <;>
    exact Option.isSome_iff_exists.1 (by decide)

/-- Claim C5 (amended). For every target and every value `r` of `Math.random()` (a binary64
number with `0 ≤ r < 1`), the index `Math.floor(r * 5)` is within the bounds of the palette,
so the colour picked is one of the five palette colours and whatever `changeColor` returns
is that colour, never `undefined`; when the lookup of line 35 finds the target box,
`changeColor` returns the colour and the inline background colour of the box afterwards is
the colour the returned value denotes, read back in the form `rgb(r, g, b)`. -/
theorem changeColor_in_palette (engine : SelectorEngine) (p : Page) (targetId : String)
    (r : RandomDraw) (hr : r.isDouble) :
    floorTimes r colors.length < colors.length ∧
    ∃ c declared, c ∈ ["#4cb5ae", "#ff6b6b", "#ffd166", "#06d6a0", "#118ab2"] ∧
      colors[floorTimes r colors.length]? = some c ∧
      cssColor c = some declared ∧
      (∀ v, (changeColor engine p targetId r).1 = .ok v → v = some c) ∧
      ∀ box e, querySelectorBox engine p.document targetId = .ok (some box) →
        p.document[box]? = some e →
        (changeColor engine p targetId r).1 = .ok (some c) ∧
        ∃ e', (changeColor engine p targetId r).2.document[box]? = some e' ∧
          e'.style.backgroundColor = declared := by
  have hlt := floorTimes_lt r hr
  have hmem : colors[floorTimes r colors.length] ∈ colors := List.getElem_mem _
  obtain ⟨declared, hdecl⟩ := colors_cssColor _ hmem
  have hget : colors[floorTimes r colors.length]? = some colors[floorTimes r colors.length] :=
    List.getElem?_eq_getElem hlt
  refine ⟨hlt, colors[floorTimes r colors.length], declared, hmem, hget, hdecl, ?_, ?_⟩
  · intro v hv
    rw [changeColor_eq, hget] at hv
    cases hq : querySelectorBox engine p.document targetId with
    | error err => rw [hq] at hv; cases hv
    | ok found =>
      cases found with
      | none => rw [hq] at hv; cases hv
      | some b =>
        rw [hq] at hv
        exact (Except.ok.inj hv).symm
  · intro box e hbox he
    rw [changeColor_eq, hbox, hget]
    refine ⟨rfl, setBackgroundColor e (some colors[floorTimes r colors.length]), ?_, ?_⟩
    · rw [getElem?_updateElement, he]
      simp
    · simp only [setBackgroundColor, hdecl]

/-- Witness for C5 (amended): the largest binary64 number below 1, on the page of
`cardDocument`, where the lookup finds the box at position 1. -/
theorem changeColor_in_palette_witness :
    RandomDraw.isDouble ⟨2 ^ 53 - 1, 53⟩ ∧
    querySelectorBox nullEngine (init cardDocument).document "card1" = .ok (some 1) ∧
    floorTimes ⟨2 ^ 53 - 1, 53⟩ colors.length < colors.length ∧
    ∃ c declared, c ∈ ["#4cb5ae", "#ff6b6b", "#ffd166", "#06d6a0", "#118ab2"] ∧
      cssColor c = some declared ∧
      (changeColor nullEngine (init cardDocument) "card1" ⟨2 ^ 53 - 1, 53⟩).1
        = .ok (some c) ∧
      ∃ e', (changeColor nullEngine (init cardDocument) "card1"
          ⟨2 ^ 53 - 1, 53⟩).2.document[1]? = some e' ∧
        e'.style.backgroundColor = declared :=
  ⟨by decide, by decide,
    (changeColor_in_palette nullEngine (init cardDocument) "card1" ⟨2 ^ 53 - 1, 53⟩
      (by decide)).1,
    match (changeColor_in_palette nullEngine (init cardDocument) "card1" ⟨2 ^ 53 - 1, 53⟩
      (by decide)).2 with
    | ⟨c, declared, hc, _, hcss, _, hbox⟩ =>
      ⟨c, declared, hc, hcss,
        hbox 1 (init cardDocument).document[1] (by decide) (by decide)⟩⟩

/-- Counterexample to C5: on the page of `cardDocument`, with the largest binary64 number
below 1 as the random draw, `changeColor('card1')` returns `#118ab2` and the inline
background colour of the box afterwards reads `rgb(17, 138, 178)`, which is not the returned
string. -/
theorem changeColor_readback_counterexample :
    querySelectorBox nullEngine (init cardDocument).document "card1" = .ok (some 1) ∧
    (changeColor nullEngine (init cardDocument) "card1" ⟨2 ^ 53 - 1, 53⟩).1
      = .ok (some "#118ab2") ∧
    ((changeColor nullEngine (init cardDocument) "card1" ⟨2 ^ 53 - 1, 53⟩).2.document[1]?).map
      (fun e => e.style.backgroundColor) = some "rgb(17, 138, 178)" ∧
    "rgb(17, 138, 178)" ≠ "#118ab2" := by
  decide

theorem roundSignificand_two_pow_53 : roundSignificand (2 ^ 53) = 2 ^ 53 := by decide

/-- Claim C6 (amended). For all integers `d ≥ 0` and `l ≥ 0` with `d + l ≤ 2^53`,
`calculateTotalTime(d, l)` is the number `d + l`; in particular `calculateTotalTime(0, 0)`
is `0`. -/
theorem calculateTotalTime_exact (d l : Nat) (h : d + l ≤ 2 ^ 53) :
    calculateTotalTime d l = .finite (d + l) ∧ calculateTotalTime 0 0 = .finite 0 := by
  have key : ∀ n : Nat, n ≤ 2 ^ 53 → toNumber n = .finite n := by
    intro n hn
    have hr : roundSignificand n = n := by
      rcases Nat.lt_or_ge n (2 ^ 53) with hlt | hge
      · exact roundSignificand_of_lt n hlt
      · have hn' : n = 2 ^ 53 := Nat.le_antisymm hn hge
        rw [hn']
        exact roundSignificand_two_pow_53
    have hthr : (2 : Nat) ^ 53 < overflowThreshold := by decide
    simp only [toNumber, hr]
    rw [if_pos (Nat.lt_of_le_of_lt hn hthr)]
  exact ⟨key (d + l) h, key 0 (Nat.zero_le _)⟩

/-- Witness for C6 (amended): 1500 ms duration and 250 ms delay. -/
theorem calculateTotalTime_exact_witness :
    1500 + 250 ≤ 2 ^ 53 ∧
    calculateTotalTime 1500 250 = .finite (1500 + 250) ∧
    calculateTotalTime 0 0 = .finite 0 :=
  ⟨by decide, calculateTotalTime_exact 1500 250 (by decide)⟩

/-- Counterexample to C6: `2^53` and `1` are both JavaScript numbers, and
`calculateTotalTime(9007199254740992, 1)` is `9007199254740992`, not `9007199254740993`. -/
theorem calculateTotalTime_counterexample :
    toNumber (2 ^ 53) = .finite (2 ^ 53) ∧ toNumber 1 = .finite 1 ∧
    calculateTotalTime (2 ^ 53) 1 = .finite 9007199254740992 ∧
    calculateTotalTime (2 ^ 53) 1 ≠ .finite (2 ^ 53 + 1) := by
  decide

/-! ## Pages built by `init` -/

/-- Every animation box recorded at load time is an element of the document. -/
theorem init_animationBoxes_lt (doc : List Element) (box : Nat)
    (h : box ∈ (init doc).animationBoxes) : box < (init doc).document.length := by
  simp only [init, querySelectorAllAnimationBox, List.mem_filter, List.mem_range] at h
  exact h.1

/-- The interactive box recorded at load time is an element of the document. -/
theorem init_interactiveBox_lt (doc : List Element) (ib : Nat)
    (h : (init doc).interactiveBox = some ib) : ib < (init doc).document.length := by
  have := List.mem_of_find?_eq_some h
  simpa using this

end AnimationPage
